import Mathlib

/-!
Verification of the `three-rubiks-cube` gesture / transform engine.

Shallow embedding of the `RubiksCube` class of `lib/src/cube.ts` and the
transform helpers of `lib/src/transform.ts`.

Modelling conventions:

* JavaScript IEEE-754 numbers are modelled by an arbitrary linear ordered
  field `R`; theorems instantiate `R := ℝ` (when the real constants `π`,
  `Real.cos`, `Real.sin` are needed) or `R := ℚ` (when a decidable,
  executable instance is needed).  All arithmetic appearing in the claims
  is exact in this model.
* Calls to `Math.cos` / `Math.sin` (performed inside
  `THREE.Matrix4.makeRotationAxis`) are routed through an explicit
  `TrigOracle` record so that the definitions stay executable; real-number
  theorems instantiate it with `Real.cos` / `Real.sin` / `Real.pi`.
* `THREE.Vector3` becomes `Vec3 R`; a cube piece is identified with its
  `position` vector (the 27 children of the `RubiksCube` object).  The
  decorative mesh geometry of a piece is out of scope; `Box3` bounding-box
  centers are computed from the piece positions (the identical geometry
  half-extents of the pieces cancel in the min/max midpoint).
* The `requestAnimationFrame` loop of an animation is modelled by a list of
  intermediate `currentAngle` values followed by the final frame.  On the
  final frame the code has `progress = Math.min(elapsed/duration, 1) = 1`,
  `easedProgress = easeInOutCubic 1 = 1` (proved below) and hence
  `currentAngle = targetAngle` exactly; the model appends that exact final
  frame to the quantified list of intermediate frames.
* The single-threaded, run-to-completion JavaScript event loop is modelled
  by executing an accepted animation to completion and then invoking its
  completion callback (continuation).
-/

/-- The three coordinate axes `'x' | 'y' | 'z'`. -/
inductive Axis : Type
  | x
  | y
  | z
deriving DecidableEq, Repr

instance : Fintype Axis :=
  ⟨⟨{Axis.x, Axis.y, Axis.z}, by decide⟩, by intro a; cases a <;> decide⟩

/-- The restricted axis argument `'x' | 'y'` of `rotateCube`. -/
inductive AxisXY : Type
  | x
  | y
deriving DecidableEq, Repr

instance : Fintype AxisXY :=
  ⟨⟨{AxisXY.x, AxisXY.y}, by decide⟩, by intro a; cases a <;> decide⟩

/-- Conversion of a `rotateCube` axis to a general axis. -/
def AxisXY.toAxis : AxisXY → Axis
  | .x => Axis.x
  | .y => Axis.y

/-- `THREE.Vector3`, specialised to the coordinates of a cube piece. -/
structure Vec3 (R : Type) where
  x : R
  y : R
  z : R
deriving DecidableEq, Repr

namespace Vec3

variable {R : Type} [LinearOrderedField R]

/-- Componentwise addition (`Vector3.add`). -/
instance : Add (Vec3 R) := ⟨fun a b => ⟨a.x + b.x, a.y + b.y, a.z + b.z⟩⟩

/-- Componentwise subtraction (`Vector3.sub`). -/
instance : Sub (Vec3 R) := ⟨fun a b => ⟨a.x - b.x, a.y - b.y, a.z - b.z⟩⟩

/-- Componentwise negation. -/
instance : Neg (Vec3 R) := ⟨fun a => ⟨-a.x, -a.y, -a.z⟩⟩

/-- The JavaScript dynamic index `v[axis]`. -/
def get (v : Vec3 R) : Axis → R
  | Axis.x => v.x
  | Axis.y => v.y
  | Axis.z => v.z

/-- `Vector3.lerpVectors(a, b, t)`: `a + (b - a) * t`, componentwise. -/
def lerp (a b : Vec3 R) (t : R) : Vec3 R :=
  ⟨a.x + (b.x - a.x) * t, a.y + (b.y - a.y) * t, a.z + (b.z - a.z) * t⟩

end Vec3

/-- The trigonometric primitives consumed by `THREE.Matrix4.makeRotationAxis`
(`Math.cos`, `Math.sin`) together with the constant `Math.PI`.  Keeping them
as an explicit record keeps every definition executable; real-number
theorems instantiate the record with `Real.cos`, `Real.sin`, `Real.pi`. -/
structure TrigOracle (R : Type) where
  cos : R → R
  sin : R → R
  pi : R

/-- Equality of `Except` results is decidable componentwise (used to
evaluate the mouse-handler models on concrete inputs). -/
instance {e a : Type} [DecidableEq e] [DecidableEq a] : DecidableEq (Except e a) := fun x y =>
  match x, y with
  | Except.ok u, Except.ok v =>
    if h : u = v then isTrue (by rw [h]) else isFalse (by intro hc; cases hc; exact h rfl)
  | Except.error u, Except.error v =>
    if h : u = v then isTrue (by rw [h]) else isFalse (by intro hc; cases hc; exact h rfl)
  | Except.ok _, Except.error _ => isFalse (by intro hc; cases hc)
  | Except.error _, Except.ok _ => isFalse (by intro hc; cases hc)

/-- The cosine/sine pair of an angle, as produced by the oracle. -/
def TrigOracle.pair {R : Type} (T : TrigOracle R) (θ : R) : R × R :=
  (T.cos θ, T.sin θ)

/-- Composition of two rotation (cosine, sine) pairs about a common axis:
the matrix product `R(p) * R(q)` is the rotation with this pair.  This is
the pure algebraic angle-addition law; no unit-norm condition is needed. -/
def pmul {R : Type} [LinearOrderedField R] (p q : R × R) : R × R :=
  (p.1 * q.1 - p.2 * q.2, p.2 * q.1 + p.1 * q.2)

/-- Rotation of a vector about a coordinate `axis` through the origin, with
the rotation's cosine/sine given as the pair `p`.  This is the action of
`THREE.Matrix4.makeRotationAxis(unitAxis, angle)` for the three unit axes,
with `p = (cos angle, sin angle)`. -/
def rotAxisP {R : Type} [LinearOrderedField R] (a : Axis) (p : R × R) (v : Vec3 R) : Vec3 R :=
  match a with
  | Axis.x => ⟨v.x, p.1 * v.y - p.2 * v.z, p.2 * v.y + p.1 * v.z⟩
  | Axis.y => ⟨p.1 * v.x + p.2 * v.z, v.y, -(p.2 * v.x) + p.1 * v.z⟩
  | Axis.z => ⟨p.1 * v.x - p.2 * v.y, p.2 * v.x + p.1 * v.y, v.z⟩

/-- One piece update of `rotateCubesAroundPivot`: translate into
pivot-relative space (`position.sub(pivot.position)`), apply the rotation
matrix (`applyMatrix4(makeRotationAxis(axis, angle))`, which rotates the
decomposed position), translate back (`position.add(pivot.position)`). -/
def rotAroundPivotP {R : Type} [LinearOrderedField R] (a : Axis) (p : R × R) (pivot v : Vec3 R) :
    Vec3 R :=
  rotAxisP a p (v - pivot) + pivot

/-- `easeInOutCubic` from `lib/src/transform.ts`:
`value < 0.5 ? 4 v³ : 1 - (-2 v + 2)³ / 2`. -/
def easeInOutCubic {R : Type} [LinearOrderedField R] (value : R) : R :=
  if value < 1 / 2 then 4 * value * value * value
  else 1 - (-2 * value + 2) ^ 3 / 2

/-- The head-seeded minimum fold over a list, i.e. the `min` coordinate a
`THREE.Box3` accumulates from a set of points (`none` for an empty box). -/
def listMin {R : Type} [LinearOrderedField R] : List R → Option R
  | [] => none
  | x :: xs => some (xs.foldl min x)

/-- The head-seeded maximum fold; the `max` coordinate of a `THREE.Box3`. -/
def listMax {R : Type} [LinearOrderedField R] : List R → Option R
  | [] => none
  | x :: xs => some (xs.foldl max x)

/-- The midpoint `(min + max) / 2` of one coordinate of a bounding box
(`Box3.getCenter`).  The empty-box default is irrelevant: the cube always
has 27 children. -/
def coordCenter {R : Type} [LinearOrderedField R] (l : List R) : R :=
  (((listMin l).getD 0) + ((listMax l).getD 0)) / 2

namespace RubiksCube

variable {R : Type} [LinearOrderedField R]

/-- `calculateGroupCenter`: the bounding-box center of a set of pieces.
`Box3.expandByObject` grows the box by each piece's world box; since every
piece has the same geometry extents, they cancel in the `(min+max)/2`
midpoint and the center is that of the position set. -/
def calculateGroupCenter (cubes : List (Vec3 R)) : Vec3 R :=
  ⟨coordCenter (cubes.map Vec3.x), coordCenter (cubes.map Vec3.y), coordCenter (cubes.map Vec3.z)⟩

/-- `isInSection(position, axis, section)`: slice membership relative to the
bounding-box center of all children.  Section `0`: `value < center - 0.5`;
section `1`: `center - 0.5 ≤ value ≤ center + 0.5`; section `2`:
`value > center + 0.5`. -/
def isInSection (children : List (Vec3 R)) (position : Vec3 R) (axis : Axis) (sec : Fin 3) :
    Bool :=
  let centerAxis := (calculateGroupCenter children).get axis
  let value := position.get axis
  if sec = 0 then decide (value < centerAxis - 1 / 2)
  else if sec = 1 then decide (centerAxis - 1 / 2 ≤ value) && decide (value ≤ centerAxis + 1 / 2)
  else decide (value > centerAxis + 1 / 2)

/-- `getSection(position)`: the slice index of a raw coordinate (used on the
gesture's intersection point): `< -0.5 ↦ 0`, `> 0.5 ↦ 2`, else `1`. -/
def getSection (position : R) : Fin 3 :=
  if position < -(1 / 2) then 0
  else if position > 1 / 2 then 2
  else 1

/-- `getSectionCubes(axis, section)`: the children belonging to a slice. -/
def getSectionCubes (children : List (Vec3 R)) (axis : Axis) (sec : Fin 3) : List (Vec3 R) :=
  children.filter (fun child => isInSection children child axis sec)

/-- `applyRotation(axis, section, angle)` at the (cosine, sine)-pair level:
select the slice, return unchanged if it is empty, otherwise rotate each
selected piece around the slice's bounding-box center pivot.  Mutating the
selected children in place is modelled by mapping the full children list. -/
def applyRotationP (children : List (Vec3 R)) (axis : Axis) (sec : Fin 3) (p : R × R) :
    List (Vec3 R) :=
  let cubes := getSectionCubes children axis sec
  if cubes.isEmpty then children
  else
    let center := calculateGroupCenter cubes
    children.map fun child =>
      if isInSection children child axis sec then rotAroundPivotP axis p center child else child

/-- `applyRotation(axis, section, angle)` with the angle converted by
`makeRotationAxis` into its cosine/sine pair. -/
def applyRotationAngle (T : TrigOracle R) (children : List (Vec3 R)) (axis : Axis) (sec : Fin 3)
    (angle : R) : List (Vec3 R) :=
  applyRotationP children axis sec (T.pair angle)

/-- `rotateEntireCube(axis, angle)` at the pair level: every child rotates
about the bounding-box center of the whole cube.  The ephemeral pivot
object that is temporarily added to `children` rotates onto itself and is
removed again, so it is elided from the children list. -/
def rotateEntireCubeP (children : List (Vec3 R)) (axis : Axis) (p : R × R) : List (Vec3 R) :=
  let center := calculateGroupCenter children
  children.map (rotAroundPivotP axis p center)

end RubiksCube

namespace RubiksCube

variable {R : Type} [LinearOrderedField R]

end RubiksCube

/-- The mutable fields of a `RubiksCube` instance that the claims observe:
the 27 child positions, the transform lock, and the transient gesture
state.  (`mouse`, the raycaster and the geometry are external collaborators
and carry no transform logic.)  The field name `isTranforming` keeps the
source's spelling. -/
structure CubeState (R : Type) where
  positions : List (Vec3 R)
  isTranforming : Bool
  isDragging : Bool
  dragStartX : Option R
  dragStartY : Option R
  /-- `initialIntersect`, reduced to the fields the class reads:
  the intersection `point` and the face `normal`. -/
  initialIntersect : Option (Vec3 R × Vec3 R)
  selectedFace : Option Axis
  rotationAxis : Option Axis
  rotationSection : Option (Fin 3)
  rotationAngle : Option R
deriving DecidableEq

namespace RubiksCube

variable {R : Type} [LinearOrderedField R]

/-- One `animate` frame of `animateSectionRotation`: apply the incremental
angle `currentAngle - (this.rotationAngle ?? 0)` to the slice and store
`currentAngle`. -/
def sectionFrameStep (T : TrigOracle R) (axis : Axis) (sec : Fin 3) (st : CubeState R)
    (currentAngle : R) : CubeState R :=
  { st with
    positions := applyRotationAngle T st.positions axis sec
      (currentAngle - st.rotationAngle.getD 0)
    rotationAngle := some currentAngle }

/-- `animateSectionRotation(axis, section, targetAngle, options)` run to
completion: the intermediate frames carry arbitrary `currentAngle` values
(quantified in the theorems); the final frame has `progress = 1`, hence
`currentAngle = targetAngle * easeInOutCubic 1 = targetAngle` exactly.
On that frame the lock is cleared and `rotationAngle` reset before the
completion callback runs. -/
def animateSectionRotation (T : TrigOracle R) (axis : Axis) (sec : Fin 3) (targetAngle : R)
    (frames : List R) (s : CubeState R) : CubeState R :=
  let s1 := (frames ++ [targetAngle]).foldl (sectionFrameStep T axis sec) s
  { s1 with isTranforming := false, rotationAngle := none }

/-- One `animate` frame of `animateCubeRotation`: rotate the whole cube by
`currentAngle - (this.rotationAngle || 0)` and store `currentAngle`. -/
def cubeFrameStep (T : TrigOracle R) (axis : Axis) (st : CubeState R) (currentAngle : R) :
    CubeState R :=
  { st with
    positions := rotateEntireCubeP st.positions axis
      (T.pair (currentAngle - st.rotationAngle.getD 0))
    rotationAngle := some currentAngle }

/-- `animateCubeRotation(axis, targetAngle, options)` run to completion,
with the same frame convention as `animateSectionRotation`. -/
def animateCubeRotation (T : TrigOracle R) (axis : AxisXY) (targetAngle : R) (frames : List R)
    (s : CubeState R) : CubeState R :=
  let s1 := (frames ++ [targetAngle]).foldl (cubeFrameStep T axis.toAxis) s
  { s1 with isTranforming := false, rotationAngle := none }

/-- `rotateCube(axis, direction, options)`: rejected (silent no-op) while
`isTranforming` or a gesture's `initialIntersect` is set; otherwise takes
the lock and animates the whole cube to `±π/2`
(`clockwise ↦ +`, `counterclockwise ↦ -`). -/
def rotateCube (T : TrigOracle R) (axis : AxisXY) (clockwise : Bool) (frames : List R)
    (s : CubeState R) : CubeState R :=
  if s.isTranforming || s.initialIntersect.isSome then s
  else
    animateCubeRotation T axis (if clockwise then T.pi / 2 else -(T.pi / 2)) frames
      { s with isTranforming := true }

/-- `rotate(axis, section, direction, options)`: rejected while
`isTranforming`; otherwise takes the lock and animates the slice to
`±π/2`. -/
def rotate (T : TrigOracle R) (axis : Axis) (sec : Fin 3) (clockwise : Bool) (frames : List R)
    (s : CubeState R) : CubeState R :=
  if s.isTranforming then s
  else
    animateSectionRotation T axis sec (if clockwise then T.pi / 2 else -(T.pi / 2)) frames
      { s with isTranforming := true }

/-- Observable completion events of a `shuffle` run: the completion of one
slice turn (the per-turn `onComplete` passed by `shuffle` firing) and the
overall `onComplete`. -/
inductive ShuffleEvent : Type
  | turnCompleted
  | overallComplete
deriving DecidableEq, Repr

/-- A cube state paired with the trace of completion events observed so
far (the "call counter" instrumentation of the spec's shuffle scenario). -/
def TracedState (R : Type) : Type := CubeState R × List ShuffleEvent

/-- `rotate` in continuation-passing form, as `shuffle` consumes it: when
the request is rejected the `onComplete` continuation is never invoked;
when it is accepted, the animation runs to completion (clearing the lock)
and then `onComplete` fires. -/
def rotateWithCallback (T : TrigOracle R) (axis : Axis) (sec : Fin 3) (clockwise : Bool)
    (frames : List R) (onComplete : TracedState R → TracedState R) (st : TracedState R) :
    TracedState R :=
  if st.1.isTranforming then st
  else onComplete (rotate T axis sec clockwise frames st.1, st.2)

/-- The random axis/section/direction drawn for one shuffle turn
(`Math.random()` is an external collaborator; the draws are modelled by an
arbitrary choice function). -/
structure ShuffleChoice : Type where
  axis : Axis
  sec : Fin 3
  clockwise : Bool

/-- `shuffleTurn(currentTurn)`: while `currentTurn < turns`, request one
slice rotation whose completion callback records the turn and recurses on
the next turn; once `currentTurn = turns`, fire the overall `onComplete`
(recorded as `ShuffleEvent.overallComplete`).  `remaining` is
`turns - currentTurn`, and `idx` is `currentTurn`. -/
def shuffleTurn (T : TrigOracle R) (pick : ℕ → ShuffleChoice) (framesOf : ℕ → List R) :
    ℕ → ℕ → TracedState R → TracedState R
  | 0, _, st => (st.1, st.2 ++ [ShuffleEvent.overallComplete])
  | remaining + 1, idx, st =>
    rotateWithCallback T (pick idx).axis (pick idx).sec (pick idx).clockwise (framesOf idx)
      (fun st' => shuffleTurn T pick framesOf remaining (idx + 1) (st'.1, st'.2 ++ [ShuffleEvent.turnCompleted]))
      st

/-- `shuffle(turns, options)`: starts the recursive chain at turn 0. -/
def shuffle (T : TrigOracle R) (pick : ℕ → ShuffleChoice) (framesOf : ℕ → List R) (turns : ℕ)
    (st : TracedState R) : TracedState R :=
  shuffleTurn T pick framesOf turns 0 st

/-- `runTransformation(transformation)`: set `isTranforming = true`, await
the transformation, set `isTranforming = false`.  No check of the current
flag is performed. -/
def runTransformation (transformation : CubeState R → CubeState R) (s : CubeState R) :
    CubeState R :=
  { transformation { s with isTranforming := true } with isTranforming := false }

end RubiksCube

/-- `nearestClampDistance(angle, clamps)` (top-level helper in
`lib/src/cube.ts`): scan the clamp list for the value nearest to `angle`
(strict improvement, so the earliest nearest clamp wins ties) and return
`nearest - angle`.  The head of the list seeds the scan; the source's
default clamp list is `[-π/2, 0, π/2]`. -/
def nearestClampDistance {R : Type} [LinearOrderedField R] (angle : R) (clamps : List R) : R :=
  match clamps with
  | [] => 0
  | c0 :: rest =>
    let result := rest.foldl
      (fun (acc : R × R) c => if |angle - c| < acc.2 then (c, |angle - c|) else acc)
      (c0, |angle - c0|)
    result.1 - angle

namespace RubiksCube

variable {R : Type} [LinearOrderedField R]

/-- `getRotationAngle(deltaX, deltaY)`.  Errors are modelled with `Except`.
The guard `if (!delta || !maxpoint || !startingPoint)` tests JavaScript
falsiness, which holds for `null` and for the number `0` alike; both cases
are captured by `Option.getD 0 = 0`.  The final angle is
`((delta / maxDelta) * π) / 2` clamped to `[-π/2, π/2]`. -/
def getRotationAngle (T : TrigOracle R) (windowInnerWidth windowInnerHeight : R)
    (s : CubeState R) (deltaX deltaY : R) : Except String R :=
  if s.selectedFace = s.rotationAxis then
    Except.error "The selected face and rotation axis should not be the same."
  else
    let isXAxis := s.selectedFace = some Axis.x
    let isYAxis := s.selectedFace = some Axis.y
    let isZAxis := s.selectedFace = some Axis.z
    let hasXRotationAxis := s.rotationAxis = some Axis.x
    let hasYRotationAxis := s.rotationAxis = some Axis.y
    let hasZRotationAxis := s.rotationAxis = some Axis.z
    let horizontal := (isXAxis && hasYRotationAxis) || (isYAxis && hasZRotationAxis)
      || (isZAxis && hasYRotationAxis)
    let vertical := (isXAxis && hasZRotationAxis) || (isYAxis && hasXRotationAxis)
      || (isZAxis && hasXRotationAxis)
    let maxpoint : Option R :=
      if horizontal then some windowInnerWidth
      else if vertical then some windowInnerHeight else none
    let startingPoint : Option R :=
      if horizontal then s.dragStartX else if vertical then s.dragStartY else none
    let delta : Option R :=
      if horizontal then some (if isYAxis then -deltaX else deltaX)
      else if vertical then some deltaY else none
    if delta.getD 0 = 0 || maxpoint.getD 0 = 0 || startingPoint.getD 0 = 0 then
      Except.error "Unable to determine angle."
    else
      let d := delta.getD 0
      let mp := maxpoint.getD 0
      let sp := startingPoint.getD 0
      let maxDelta := if d > 0 then mp - sp else sp
      let angle := d / maxDelta * T.pi / 2
      Except.ok (min (max angle (-(T.pi / 2))) (T.pi / 2))

/-- `setRotation(axis, section, deltaX, deltaY)`: throws if `rotationAngle`
is unset, otherwise computes the new absolute gesture angle, applies only
the increment `angle - this.rotationAngle` to the slice and stores the new
angle. -/
def setRotation (T : TrigOracle R) (windowInnerWidth windowInnerHeight : R) (s : CubeState R)
    (axis : Axis) (sec : Fin 3) (deltaX deltaY : R) : Except String (CubeState R) :=
  match s.rotationAngle with
  | none => Except.error "Rotation cannot be set without rotation angle being set."
  | some prev =>
    (getRotationAngle T windowInnerWidth windowInnerHeight s deltaX deltaY).map fun angle =>
      { s with
        positions := applyRotationAngle T s.positions axis sec (angle - prev)
        rotationAngle := some angle }

/-- The classification part of `onMouseMove` (reached on a processed move
whose axis/section/angle are not all locked yet): set `rotationAngle := 0`,
then run the three sequential normal-component tests (a later test
overwrites an earlier assignment), and finally derive the slice index from
the intersection point's coordinate along the chosen axis. -/
def classifyMove (point normal : Vec3 R) (deltaX deltaY : R) (s : CubeState R) : CubeState R :=
  let s1 := { s with rotationAngle := some (0 : R) }
  let s2 :=
    if normal.x ≠ 0 then
      { s1 with
        rotationAxis := some (if |deltaX| > |deltaY| then Axis.y else Axis.z)
        selectedFace := some Axis.x }
    else s1
  let s3 :=
    if normal.y ≠ 0 then
      { s2 with
        rotationAxis := some (if |deltaX| > |deltaY| then Axis.z else Axis.x)
        selectedFace := some Axis.y }
    else s2
  let s4 :=
    if normal.z ≠ 0 then
      { s3 with
        rotationAxis := some (if |deltaX| > |deltaY| then Axis.y else Axis.x)
        selectedFace := some Axis.z }
    else s3
  match s4.rotationAxis with
  | some a => { s4 with rotationSection := some (getSection (point.get a)) }
  | none => s4

/-- `onMouseMove(event)`: bail out unless a gesture is armed
(`isDragging` and `initialIntersect` and both drag-start coordinates set);
compute the screen deltas; drop the move if either delta is inside the
10-pixel dead zone (`|deltaX| < 10 || |deltaY| < 10`); if axis, section and
angle are all locked, feed the deltas to `setRotation`, otherwise classify
the move. -/
def onMouseMove (T : TrigOracle R) (windowInnerWidth windowInnerHeight : R)
    (clientX clientY : R) (s : CubeState R) : Except String (CubeState R) :=
  if !s.isDragging then Except.ok s
  else
    match s.initialIntersect with
    | none => Except.ok s
    | some (point, normal) =>
      match s.dragStartX, s.dragStartY with
      | some startX, some startY =>
        let deltaX := clientX - startX
        let deltaY := clientY - startY
        if |deltaX| < 10 || |deltaY| < 10 then Except.ok s
        else
          match s.rotationAxis, s.rotationSection, s.rotationAngle with
          | some a, some sec, some _ =>
            setRotation T windowInnerWidth windowInnerHeight s a sec deltaX deltaY
          | _, _, _ => Except.ok (classifyMove point normal deltaX deltaY s)
      | _, _ => Except.ok s

/-- `onMouseUp(event)`: stop dragging; if axis, section and angle are all
locked, instantaneously apply the snap correction
`nearestClampDistance(rotationAngle)`; in every case reset the gesture
state (`rotationAxis`, `rotationSection`, `rotationAngle`,
`initialIntersect`) to `null`. -/
def onMouseUp (T : TrigOracle R) (s : CubeState R) : CubeState R :=
  let s0 := { s with isDragging := false }
  let s1 :=
    match s.rotationAxis, s.rotationSection, s.rotationAngle with
    | some a, some sec, some θ =>
      let angleClamp := nearestClampDistance θ [-(T.pi / 2), 0, T.pi / 2]
      { s0 with positions := applyRotationAngle T s0.positions a sec angleClamp }
    | _, _, _ => s0
  { s1 with
    rotationAxis := none
    rotationSection := none
    rotationAngle := none
    initialIntersect := none }

end RubiksCube

/-- `explodeAndReassemble(cube, options)` from `lib/src/transform.ts`, run
to completion under `runTransformation`: capture the original positions,
lerp every piece towards externally drawn random target positions
(`explode`), then lerp back (`reassemble`).  `explodeTs`/`reassembleTs`
are the eased intermediate progress inputs; each phase ends with the exact
`progress = 1` frame (`Math.min((elapsed/duration)*1000, 1) = 1` and
`easeInOutCubic 1 = 1`), so the final frame restores the captured
originals exactly. -/
def explodeAndReassemble {R : Type} [LinearOrderedField R] (randomPositions : List (Vec3 R))
    (explodeTs reassembleTs : List R) (s : CubeState R) : CubeState R :=
  RubiksCube.runTransformation
    (fun st =>
      let originalPositions := st.positions
      let st1 := (explodeTs ++ [1]).foldl
        (fun acc t =>
          { acc with
            positions := List.zipWith (fun o r => Vec3.lerp o r (easeInOutCubic t))
              originalPositions randomPositions })
        st
      (reassembleTs ++ [1]).foldl
        (fun acc t =>
          { acc with
            positions := List.zipWith (fun r o => Vec3.lerp r o (easeInOutCubic t))
              randomPositions originalPositions })
        st1)
    s

/-- The 27 initial piece positions of `initCube`: `x`, `y`, `z` each
ranging over `-1, 0, 1` (times `piece.size = 1`), with `x` as the outer
loop and `z` as the innermost. -/
def initPositions (R : Type) [LinearOrderedField R] : List (Vec3 R) :=
  ([-1, 0, 1] : List R).flatMap fun x =>
    ([-1, 0, 1] : List R).flatMap fun y =>
      ([-1, 0, 1] : List R).map fun z => ⟨x, y, z⟩

/-- A freshly constructed `RubiksCube`: 27 grid pieces, no transform in
flight, no gesture state. -/
def initState (R : Type) [LinearOrderedField R] : CubeState R :=
  { positions := initPositions R
    isTranforming := false
    isDragging := false
    dragStartX := none
    dragStartY := none
    initialIntersect := none
    selectedFace := none
    rotationAxis := none
    rotationSection := none
    rotationAngle := none }

/-- The rotation pair accumulated by an animation's frames: each frame at
absolute angle `θ` applies the incremental rotation `θ - previousAngle`,
so the net rotation is the product of the incremental pairs.  `θ₀` is the
angle stored before the first frame (`rotationAngle ?? 0`). -/
def incPairProd {R : Type} [LinearOrderedField R] (T : TrigOracle R) (θ₀ : R)
    (angles : List R) : R × R :=
  (angles.foldl (fun acc θ => (pmul (T.pair (θ - acc.2)) acc.1, θ)) (((1 : R), (0 : R)), θ₀)).1

/-- Point reflection through `c`: `v ↦ c + c - v`. -/
def reflect {R : Type} [LinearOrderedField R] (c v : Vec3 R) : Vec3 R :=
  c + c - v

/-- A finite point set (as a list) is symmetric about the point `c`:
reflecting every element through `c` permutes the list.  The 27 grid
positions are symmetric about the origin, and each slice is symmetric
about its own bounding-box center. -/
def pointSymm {R : Type} [LinearOrderedField R] (c : Vec3 R) (l : List (Vec3 R)) : Prop :=
  (l.map (reflect c)).Perm l

/-- One processed pointer-move of an in-flight gesture, at the rotation
pair level: `setRotation` applies the incremental rotation
`angle - this.rotationAngle` to the locked slice via `applyRotation`; the
pair `(c, s)` is the cosine/sine of that increment (so `0 ≤ c` and
`c² + s² = 1`, since the increment of two clamped angles stays within
`[-π/2, π/2]` in magnitude on a move), and the gesture bookkeeping fields
hold the locked axis/section, the running angle and the pointer-down
data. -/
def gestureMove {R : Type} [LinearOrderedField R] (a : Axis) (sec : Fin 3) (f : Axis)
    (c s : R) (point normal : Vec3 R) (dsx dsy θ : R) (st : CubeState R) : CubeState R :=
  { st with
    positions := RubiksCube.applyRotationP st.positions a sec (c, s)
    isDragging := true
    dragStartX := some dsx
    dragStartY := some dsy
    initialIntersect := some (point, normal)
    selectedFace := some f
    rotationAxis := some a
    rotationSection := some sec
    rotationAngle := some θ }

/-- Cube states reachable from construction through *completed* programmatic
transforms (`rotateCube` and `rotate` runs that were accepted and ran to
their final frame).  The `hP` hypotheses state that the trig oracle's
incremental pairs compose to the exact quarter-turn pair
`(cos(±π/2), sin(±π/2)) = (0, ±1)` over the run's frames — which is
provable for the honest oracle `⟨Real.cos, Real.sin, Real.pi⟩` (see
`incPairProd_concat_real`). -/
inductive RestReachable (R : Type) [LinearOrderedField R] : CubeState R → Prop
  | init : RestReachable R (initState R)
  | cube (T : TrigOracle R) (axis : AxisXY) (cw : Bool) (frames : List R) (s : CubeState R)
      (hP : incPairProd T 0 (frames ++ [if cw then T.pi / 2 else -(T.pi / 2)])
        = (0, if cw then 1 else -1))
      (hs : RestReachable R s) :
      RestReachable R (RubiksCube.rotateCube T axis cw frames s)
  | slice (T : TrigOracle R) (axis : Axis) (sec : Fin 3) (cw : Bool) (frames : List R)
      (s : CubeState R)
      (hP : incPairProd T 0 (frames ++ [if cw then T.pi / 2 else -(T.pi / 2)])
        = (0, if cw then 1 else -1))
      (hs : RestReachable R s) :
      RestReachable R (RubiksCube.rotate T axis sec cw frames s)

/-- Cube states reachable at *any* instant: a rest state, or a state in the
middle of a pointer gesture, after any number of processed pointer-moves
(each applying an incremental slice rotation with a unit cosine/sine
pair whose cosine is nonnegative). -/
inductive Reachable (R : Type) [LinearOrderedField R] : CubeState R → Prop
  | rest (s : CubeState R) (h : RestReachable R s) : Reachable R s
  | gesture (a : Axis) (sec : Fin 3) (f : Axis) (c s' : R) (point normal : Vec3 R)
      (dsx dsy θ : R) (s : CubeState R)
      (hc : 0 ≤ c) (hunit : c ^ 2 + s' ^ 2 = 1) (hs : Reachable R s) :
      Reachable R (gestureMove a sec f c s' point normal dsx dsy θ s)

section Lemmas

variable {R : Type} [LinearOrderedField R]

theorem Vec3.add_def (a b : Vec3 R) : a + b = ⟨a.x + b.x, a.y + b.y, a.z + b.z⟩ := rfl

theorem Vec3.sub_def (a b : Vec3 R) : a - b = ⟨a.x - b.x, a.y - b.y, a.z - b.z⟩ := rfl

theorem Vec3.neg_def (a : Vec3 R) : -a = ⟨-a.x, -a.y, -a.z⟩ := rfl

/-- The easing curve is exact at the endpoint: the final animation frame
(`progress = 1`) applies exactly the target angle. -/
theorem easeInOutCubic_one : easeInOutCubic (1 : R) = 1 := by
  norm_num [easeInOutCubic]

theorem pmul_one_left (p : R × R) : pmul ((1 : R), (0 : R)) p = p := by
  simp [pmul]

theorem pmul_assoc (p q r : R × R) : pmul (pmul p q) r = pmul p (pmul q r) := by
  simp only [pmul, Prod.mk.injEq]
  constructor <;> ring

theorem rotAxisP_one (a : Axis) (v : Vec3 R) : rotAxisP a ((1 : R), (0 : R)) v = v := by
  cases a <;> cases v <;> simp only [rotAxisP, Vec3.mk.injEq] <;>
    refine ⟨by ring, by ring, by ring⟩

theorem rotAxisP_pmul (a : Axis) (p q : R × R) (v : Vec3 R) :
    rotAxisP a (pmul p q) v = rotAxisP a p (rotAxisP a q v) := by
  cases a <;> cases v <;> simp only [rotAxisP, pmul, Vec3.mk.injEq] <;>
    refine ⟨by ring, by ring, by ring⟩

theorem rotAroundPivotP_one (a : Axis) (c v : Vec3 R) :
    rotAroundPivotP a ((1 : R), (0 : R)) c v = v := by
  simp only [rotAroundPivotP, rotAxisP_one]
  cases v; cases c
  simp only [Vec3.sub_def, Vec3.add_def, Vec3.mk.injEq]
  refine ⟨by ring, by ring, by ring⟩

theorem rotAroundPivotP_pmul (a : Axis) (p q : R × R) (c v : Vec3 R) :
    rotAroundPivotP a (pmul p q) c v = rotAroundPivotP a p c (rotAroundPivotP a q c v) := by
  cases a <;> cases v <;> cases c <;>
    simp only [rotAroundPivotP, rotAxisP, pmul, Vec3.sub_def, Vec3.add_def, Vec3.mk.injEq] <;>
    refine ⟨by ring, by ring, by ring⟩

/-- A rotation about `axis` leaves the `axis`-coordinate of every point
unchanged (this is why slice membership along the rotation axis is stable
during a slice animation). -/
theorem rotAroundPivotP_get_self (a : Axis) (p : R × R) (c v : Vec3 R) :
    (rotAroundPivotP a p c v).get a = v.get a := by
  cases a <;> cases v <;> cases c <;>
    simp only [rotAroundPivotP, rotAxisP, Vec3.sub_def, Vec3.add_def, Vec3.get] <;> ring

/-- Rotation about a pivot commutes with point reflection through that
pivot (rotations are linear about their pivot). -/
theorem rotAroundPivotP_reflect (a : Axis) (p : R × R) (c v : Vec3 R) :
    rotAroundPivotP a p c (reflect c v) = reflect c (rotAroundPivotP a p c v) := by
  cases a <;> cases v <;> cases c <;>
    simp only [rotAroundPivotP, rotAxisP, reflect, Vec3.sub_def, Vec3.add_def, Vec3.mk.injEq] <;>
    refine ⟨by ring, by ring, by ring⟩

end Lemmas

section ListLemmas

variable {R : Type} [LinearOrderedField R]

theorem listMin_eq_minQ (l : List R) : listMin l = l.min? := by
  cases l <;> rfl

theorem listMax_eq_maxQ (l : List R) : listMax l = l.max? := by
  cases l <;> rfl

theorem listMin_eq_some_iff {l : List R} {m : R} :
    listMin l = some m ↔ m ∈ l ∧ ∀ x ∈ l, m ≤ x := by
  haveI : Std.Antisymm ((· : R) ≤ ·) := ⟨fun h h' => le_antisymm h h'⟩
  rw [listMin_eq_minQ]
  exact List.min?_eq_some_iff (fun _ => le_refl _) (fun _ _ => min_choice _ _)
    (fun _ _ _ => le_min_iff)

theorem listMax_eq_some_iff {l : List R} {m : R} :
    listMax l = some m ↔ m ∈ l ∧ ∀ x ∈ l, x ≤ m := by
  haveI : Std.Antisymm ((· : R) ≤ ·) := ⟨fun h h' => le_antisymm h h'⟩
  rw [listMax_eq_maxQ]
  exact List.max?_eq_some_iff (fun _ => le_refl _) (fun _ _ => max_choice _ _)
    (fun _ _ _ => max_le_iff)

theorem listMin_isSome {l : List R} (h : l ≠ []) : (listMin l).isSome := by
  cases l with
  | nil => exact absurd rfl h
  | cons x xs => simp [listMin]

theorem listMax_isSome {l : List R} (h : l ≠ []) : (listMax l).isSome := by
  cases l with
  | nil => exact absurd rfl h
  | cons x xs => simp [listMax]

/-- The head-seeded min fold only depends on the multiset of elements. -/
theorem listMin_perm {l₁ l₂ : List R} (h : l₁.Perm l₂) : listMin l₁ = listMin l₂ := by
  cases h₂ : listMin l₂ with
  | none =>
    rw [listMin_eq_minQ] at h₂ ⊢
    rw [List.min?_eq_none_iff] at h₂ ⊢
    subst h₂
    exact List.Perm.eq_nil h
  | some m =>
    rw [listMin_eq_some_iff] at h₂ ⊢
    exact ⟨h.mem_iff.2 h₂.1, fun x hx => h₂.2 x (h.mem_iff.1 hx)⟩

theorem listMax_perm {l₁ l₂ : List R} (h : l₁.Perm l₂) : listMax l₁ = listMax l₂ := by
  cases h₂ : listMax l₂ with
  | none =>
    rw [listMax_eq_maxQ] at h₂ ⊢
    rw [List.max?_eq_none_iff] at h₂ ⊢
    subst h₂
    exact List.Perm.eq_nil h
  | some m =>
    rw [listMax_eq_some_iff] at h₂ ⊢
    exact ⟨h.mem_iff.2 h₂.1, fun x hx => h₂.2 x (h.mem_iff.1 hx)⟩

/-- Reflecting a list through `k` swaps its min and max. -/
theorem listMin_map_reflect (k : R) (l : List R) :
    listMin (l.map (fun t => k - t)) = (listMax l).map (fun m => k - m) := by
  cases hM : listMax l with
  | none =>
    rw [listMax_eq_maxQ, List.max?_eq_none_iff] at hM
    subst hM
    rfl
  | some M =>
    rw [listMax_eq_some_iff] at hM
    simp only [Option.map_some']
    rw [listMin_eq_some_iff]
    refine ⟨List.mem_map.2 ⟨M, hM.1, rfl⟩, ?_⟩
    rintro x hx
    rcases List.mem_map.1 hx with ⟨t, ht, rfl⟩
    exact sub_le_sub_left (hM.2 t ht) k

theorem coordCenter_perm {l₁ l₂ : List R} (h : l₁.Perm l₂) : coordCenter l₁ = coordCenter l₂ := by
  simp [coordCenter, listMin_perm h, listMax_perm h]

/-- A nonempty coordinate list that reflecting through `k` merely permutes
has bounding-box midpoint `k / 2 + k / 2 / ... `, i.e. `k`-symmetric lists
center at `k`.  Here symmetry is `map (k + k - ·) l ~ l` and the midpoint
is `(min + max) / 2 = k`. -/
theorem coordCenter_of_reflect_perm {k : R} {l : List R}
    (hne : l ≠ []) (hsym : (l.map (fun t => k + k - t)).Perm l) :
    coordCenter l = k := by
  rcases Option.isSome_iff_exists.1 (listMax_isSome (R := R) hne) with ⟨M, hM⟩
  have hmin : listMin l = some (k + k - M) := by
    rw [← listMin_perm hsym, listMin_map_reflect (k + k) l, hM, Option.map_some']
  simp only [coordCenter, hmin, hM, Option.getD_some]
  ring

end ListLemmas

section CenterLemmas

variable {R : Type} [LinearOrderedField R]

theorem calculateGroupCenter_get (l : List (Vec3 R)) (a : Axis) :
    (RubiksCube.calculateGroupCenter l).get a = coordCenter (l.map (fun v => v.get a)) := by
  cases a <;> rfl

theorem reflect_get (c v : Vec3 R) (a : Axis) :
    (reflect c v).get a = c.get a + c.get a - v.get a := by
  cases a <;> cases c <;> cases v <;> rfl

theorem pointSymm_perm {c : Vec3 R} {l₁ l₂ : List (Vec3 R)} (h : l₁.Perm l₂)
    (hs : pointSymm c l₁) : pointSymm c l₂ :=
  ((h.symm.map (reflect c)).trans hs).trans h

/-- A nonempty point-symmetric set has its bounding-box center at the
symmetry point. -/
theorem pointSymm_center {c : Vec3 R} {l : List (Vec3 R)} (hne : l ≠ [])
    (hs : pointSymm c l) : RubiksCube.calculateGroupCenter l = c := by
  have hget : ∀ a : Axis, (RubiksCube.calculateGroupCenter l).get a = c.get a := by
    intro a
    rw [calculateGroupCenter_get]
    refine coordCenter_of_reflect_perm (k := c.get a) ?_ ?_
    · simpa using hne
    · have := hs.map (fun v => v.get a)
      rw [List.map_map] at this
      have heq : ((fun v => Vec3.get v a) ∘ reflect c)
          = (fun t => c.get a + c.get a - t) ∘ (fun v => v.get a) := by
        funext v
        simp [Function.comp, reflect_get]
      rw [heq, ← List.map_map] at this
      exact this
  cases hc : RubiksCube.calculateGroupCenter l with
  | mk cx cy cz =>
    cases c with
    | mk kx ky kz =>
      have h1 := hget Axis.x
      have h2 := hget Axis.y
      have h3 := hget Axis.z
      rw [hc] at h1 h2 h3
      simp only [Vec3.get] at h1 h2 h3
      simp [h1, h2, h3]

/-- Rotating a point-symmetric set rigidly about its symmetry point keeps
it point-symmetric. -/
theorem pointSymm_map_rot {c : Vec3 R} {l : List (Vec3 R)} (a : Axis) (p : R × R)
    (hs : pointSymm c l) : pointSymm c (l.map (rotAroundPivotP a p c)) := by
  unfold pointSymm
  rw [List.map_map]
  have heq : (reflect c ∘ rotAroundPivotP a p c) = rotAroundPivotP a p c ∘ reflect c := by
    funext v
    simp [Function.comp, rotAroundPivotP_reflect]
  rw [heq, ← List.map_map]
  exact hs.map (rotAroundPivotP a p c)

end CenterLemmas

section SliceBridge

variable {R : Type} [LinearOrderedField R]

/-- `isInSection` only reads the group center's and the position's
coordinate along the classification axis. -/
theorem isInSection_congr_get {ch ch' : List (Vec3 R)} {w w' : Vec3 R} {a : Axis} {sec : Fin 3}
    (hc : (RubiksCube.calculateGroupCenter ch).get a
      = (RubiksCube.calculateGroupCenter ch').get a)
    (hw : w.get a = w'.get a) :
    RubiksCube.isInSection ch w a sec = RubiksCube.isInSection ch' w' a sec := by
  simp only [RubiksCube.isInSection]
  rw [hc, hw]

/-- The positions produced by one slice update keep every `a`-coordinate. -/
theorem sliceMap_get {l : List (Vec3 R)} {a : Axis} {sec : Fin 3} {P : R × R} {c : Vec3 R}
    (v : Vec3 R) :
    ((if RubiksCube.isInSection l v a sec then rotAroundPivotP a P c v else v)).get a
      = v.get a := by
  by_cases h : RubiksCube.isInSection l v a sec <;>
    simp [h, rotAroundPivotP_get_self]

/-- Applying a further incremental slice rotation `q` to a state whose
slice has already been rotated rigidly by `P` about its original pivot
composes the two rotations: the slice membership and the pivot recomputed
from the updated positions agree with the original ones (membership along
the rotation axis is coordinate-stable, and the rotated slice is still
point-symmetric about the pivot), so the new pass rotates the same pieces
about the same pivot. -/
theorem applyRotationP_sliceMap {l : List (Vec3 R)} {a : Axis} {sec : Fin 3} (P q : R × R)
    (hsym : pointSymm
      (RubiksCube.calculateGroupCenter (RubiksCube.getSectionCubes l a sec))
      (RubiksCube.getSectionCubes l a sec)) :
    RubiksCube.applyRotationP
        (l.map (fun v => if RubiksCube.isInSection l v a sec
          then rotAroundPivotP a P
            (RubiksCube.calculateGroupCenter (RubiksCube.getSectionCubes l a sec)) v
          else v))
        a sec q
      = l.map (fun v => if RubiksCube.isInSection l v a sec
          then rotAroundPivotP a (pmul q P)
            (RubiksCube.calculateGroupCenter (RubiksCube.getSectionCubes l a sec)) v
          else v) := by
  set c := RubiksCube.calculateGroupCenter (RubiksCube.getSectionCubes l a sec) with hc
  set g := fun v => if RubiksCube.isInSection l v a sec then rotAroundPivotP a P c v else v
    with hg
  have hget : ∀ v : Vec3 R, (g v).get a = v.get a := fun v => sliceMap_get v
  have hcoordlists : (l.map g).map (fun v => v.get a) = l.map (fun v => v.get a) := by
    rw [List.map_map]
    exact List.map_congr_left (fun v _ => hget v)
  have hcent : (RubiksCube.calculateGroupCenter (l.map g)).get a
      = (RubiksCube.calculateGroupCenter l).get a := by
    rw [calculateGroupCenter_get, calculateGroupCenter_get, hcoordlists]
  have hmem : ∀ w : Vec3 R,
      RubiksCube.isInSection (l.map g) w a sec = RubiksCube.isInSection l w a sec :=
    fun w => isInSection_congr_get hcent rfl
  have hmemg : ∀ v : Vec3 R,
      RubiksCube.isInSection l (g v) a sec = RubiksCube.isInSection l v a sec :=
    fun v => isInSection_congr_get rfl (hget v)
  have hsel : RubiksCube.getSectionCubes (l.map g) a sec
      = (RubiksCube.getSectionCubes l a sec).map (rotAroundPivotP a P c) := by
    unfold RubiksCube.getSectionCubes
    calc (l.map g).filter (fun w => RubiksCube.isInSection (l.map g) w a sec)
        = (l.map g).filter (fun w => RubiksCube.isInSection l w a sec) := by
          apply List.filter_congr
          intro w _
          rw [hmem w]
      _ = (l.filter (fun v => RubiksCube.isInSection l (g v) a sec)).map g := by
          rw [List.filter_map]
          rfl
      _ = (l.filter (fun v => RubiksCube.isInSection l v a sec)).map g := by
          rw [List.filter_congr (fun v _ => by rw [hmemg v])]
      _ = (l.filter (fun v => RubiksCube.isInSection l v a sec)).map (rotAroundPivotP a P c) := by
          apply List.map_congr_left
          intro v hv
          have : RubiksCube.isInSection l v a sec := (List.mem_filter.1 hv).2
          simp only [hg, this, if_true]
  by_cases hempty : RubiksCube.getSectionCubes l a sec = []
  · have hfe : ∀ v ∈ l, RubiksCube.isInSection l v a sec = false := by
      intro v hv
      by_contra hne
      have : v ∈ RubiksCube.getSectionCubes l a sec :=
        List.mem_filter.2 ⟨hv, by simpa using hne⟩
      simp [hempty] at this
    have hsel' : RubiksCube.getSectionCubes (l.map g) a sec = [] := by
      rw [hsel, hempty]; rfl
    unfold RubiksCube.applyRotationP
    rw [hsel']
    simp only [List.isEmpty_nil, if_true]
    apply List.map_congr_left
    intro v hv
    simp only [hg, hfe v hv, Bool.false_eq_true, if_false]
  · have hselne : (RubiksCube.getSectionCubes l a sec).map (rotAroundPivotP a P c) ≠ [] := by
      simpa using hempty
    have hcent2 : RubiksCube.calculateGroupCenter
        ((RubiksCube.getSectionCubes l a sec).map (rotAroundPivotP a P c)) = c :=
      pointSymm_center hselne (pointSymm_map_rot a P hsym)
    have hemp : ((RubiksCube.getSectionCubes l a sec).map (rotAroundPivotP a P c)).isEmpty
        = false := by
      simpa [List.isEmpty_iff] using hselne
    simp only [RubiksCube.applyRotationP, hsel, hcent2, hemp, Bool.false_eq_true, if_false,
      List.map_map]
    apply List.map_congr_left
    intro v _
    have hrotmem : ∀ p' : R × R,
        RubiksCube.isInSection l (rotAroundPivotP a p' c v) a sec
          = RubiksCube.isInSection l v a sec :=
      fun p' => isInSection_congr_get rfl (rotAroundPivotP_get_self a p' c v)
    by_cases hv : RubiksCube.isInSection l v a sec
    · simp only [Function.comp, hmem, hg, hv, if_true, hrotmem, rotAroundPivotP_pmul]
    · simp only [Function.comp, hmem, hg, hv, Bool.false_eq_true, if_false]

end SliceBridge

section FoldBridge

variable {R : Type} [LinearOrderedField R]

/-- The frame loop of a slice animation, folded: starting from a state
whose slice is already rotated by `P`, processing the frame angles
accumulates the incremental pairs exactly as `incPairProd` does, always
rotating the original slice about the original pivot. -/
theorem sectionFold_shape (T : TrigOracle R) (a : Axis) (sec : Fin 3) (l : List (Vec3 R))
    (hsym : pointSymm
      (RubiksCube.calculateGroupCenter (RubiksCube.getSectionCubes l a sec))
      (RubiksCube.getSectionCubes l a sec)) :
    ∀ (angles : List R) (s : CubeState R) (P : R × R),
      s.positions = l.map (fun v => if RubiksCube.isInSection l v a sec
        then rotAroundPivotP a P
          (RubiksCube.calculateGroupCenter (RubiksCube.getSectionCubes l a sec)) v
        else v) →
      angles.foldl (RubiksCube.sectionFrameStep T a sec) s
        = { s with
            positions := l.map (fun v => if RubiksCube.isInSection l v a sec
              then rotAroundPivotP a
                ((angles.foldl (fun acc θ => (pmul (T.pair (θ - acc.2)) acc.1, θ))
                  (P, s.rotationAngle.getD 0)).1)
                (RubiksCube.calculateGroupCenter (RubiksCube.getSectionCubes l a sec)) v
              else v)
            rotationAngle := angles.foldl (fun _ θ => some θ) s.rotationAngle } := by
  intro angles
  induction angles with
  | nil =>
    intro s P hpos
    simp only [List.foldl_nil]
    rw [← hpos]
  | cons θ' rest ih =>
    intro s P hpos
    simp only [List.foldl_cons]
    have hstep : RubiksCube.sectionFrameStep T a sec s θ'
        = { s with
            positions := l.map (fun v => if RubiksCube.isInSection l v a sec
              then rotAroundPivotP a (pmul (T.pair (θ' - s.rotationAngle.getD 0)) P)
                (RubiksCube.calculateGroupCenter (RubiksCube.getSectionCubes l a sec)) v
              else v)
            rotationAngle := some θ' } := by
      simp only [RubiksCube.sectionFrameStep, RubiksCube.applyRotationAngle, hpos]
      rw [applyRotationP_sliceMap _ _ hsym]
    rw [hstep, ih _ _ rfl]
    rfl

/-- `animateSectionRotation` run to completion equals the single net
rotation of the slice by the accumulated pair about the slice's pivot,
with the lock cleared and the stored angle reset. -/
theorem animateSectionRotation_shape (T : TrigOracle R) (a : Axis) (sec : Fin 3)
    (targetAngle : R) (frames : List R) (s : CubeState R)
    (hsym : pointSymm
      (RubiksCube.calculateGroupCenter (RubiksCube.getSectionCubes s.positions a sec))
      (RubiksCube.getSectionCubes s.positions a sec)) :
    RubiksCube.animateSectionRotation T a sec targetAngle frames s
      = { s with
          positions := s.positions.map (fun v =>
            if RubiksCube.isInSection s.positions v a sec
            then rotAroundPivotP a
              (incPairProd T (s.rotationAngle.getD 0) (frames ++ [targetAngle]))
              (RubiksCube.calculateGroupCenter
                (RubiksCube.getSectionCubes s.positions a sec)) v
            else v)
          isTranforming := false
          rotationAngle := none } := by
  have hpos0 : s.positions = s.positions.map (fun v =>
      if RubiksCube.isInSection s.positions v a sec
      then rotAroundPivotP a ((1 : R), (0 : R))
        (RubiksCube.calculateGroupCenter (RubiksCube.getSectionCubes s.positions a sec)) v
      else v) := by
    rw [List.map_congr_left (g := id) (fun v _ => by
      by_cases h : RubiksCube.isInSection s.positions v a sec <;>
        simp [h, rotAroundPivotP_one])]
    simp
  unfold RubiksCube.animateSectionRotation
  rw [sectionFold_shape T a sec s.positions hsym (frames ++ [targetAngle]) s (1, 0) hpos0]
  rfl

end FoldBridge

section CubeBridge

variable {R : Type} [LinearOrderedField R]

/-- Rotating the whole (point-symmetric) cube again composes with the
rotation already applied: the bounding-box center recomputed from the
rotated positions is the original center. -/
theorem rotateEntireCubeP_map {l : List (Vec3 R)} {a : Axis} {c : Vec3 R} (P q : R × R)
    (hne : l ≠ []) (hsym : pointSymm c l) :
    RubiksCube.rotateEntireCubeP (l.map (rotAroundPivotP a P c)) a q
      = l.map (rotAroundPivotP a (pmul q P) c) := by
  have hsym' : pointSymm c (l.map (rotAroundPivotP a P c)) := pointSymm_map_rot a P hsym
  have hne' : l.map (rotAroundPivotP a P c) ≠ [] := by simpa using hne
  have hcent' : RubiksCube.calculateGroupCenter (l.map (rotAroundPivotP a P c)) = c :=
    pointSymm_center hne' hsym'
  simp only [RubiksCube.rotateEntireCubeP, hcent', List.map_map]
  apply List.map_congr_left
  intro v _
  simp only [Function.comp]
  rw [rotAroundPivotP_pmul]

/-- The frame loop of a whole-cube animation, folded. -/
theorem cubeFold_shape (T : TrigOracle R) (a : Axis) (l : List (Vec3 R)) (c : Vec3 R)
    (hne : l ≠ []) (hsym : pointSymm c l) :
    ∀ (angles : List R) (s : CubeState R) (P : R × R),
      s.positions = l.map (rotAroundPivotP a P c) →
      angles.foldl (RubiksCube.cubeFrameStep T a) s
        = { s with
            positions := l.map (rotAroundPivotP a
              ((angles.foldl (fun acc θ => (pmul (T.pair (θ - acc.2)) acc.1, θ))
                (P, s.rotationAngle.getD 0)).1) c)
            rotationAngle := angles.foldl (fun _ θ => some θ) s.rotationAngle } := by
  intro angles
  induction angles with
  | nil =>
    intro s P hpos
    simp only [List.foldl_nil]
    rw [← hpos]
  | cons θ' rest ih =>
    intro s P hpos
    simp only [List.foldl_cons]
    have hstep : RubiksCube.cubeFrameStep T a s θ'
        = { s with
            positions := l.map (rotAroundPivotP a
              (pmul (T.pair (θ' - s.rotationAngle.getD 0)) P) c)
            rotationAngle := some θ' } := by
      simp only [RubiksCube.cubeFrameStep, hpos]
      rw [rotateEntireCubeP_map _ _ hne hsym]
    rw [hstep, ih _ _ rfl]
    rfl

/-- `animateCubeRotation` run to completion equals the single net rotation
of every piece by the accumulated pair about the cube's center. -/
theorem animateCubeRotation_shape (T : TrigOracle R) (axis : AxisXY) (targetAngle : R)
    (frames : List R) (s : CubeState R) (hne : s.positions ≠ [])
    (hsym : pointSymm (RubiksCube.calculateGroupCenter s.positions) s.positions) :
    RubiksCube.animateCubeRotation T axis targetAngle frames s
      = { s with
          positions := s.positions.map (rotAroundPivotP axis.toAxis
            (incPairProd T (s.rotationAngle.getD 0) (frames ++ [targetAngle]))
            (RubiksCube.calculateGroupCenter s.positions))
          isTranforming := false
          rotationAngle := none } := by
  have hpos0 : s.positions = s.positions.map (rotAroundPivotP axis.toAxis ((1 : R), (0 : R))
      (RubiksCube.calculateGroupCenter s.positions)) := by
    rw [List.map_congr_left (g := id) (fun v _ => by simp [rotAroundPivotP_one])]
    simp
  unfold RubiksCube.animateCubeRotation
  rw [cubeFold_shape T axis.toAxis s.positions (RubiksCube.calculateGroupCenter s.positions)
    hne hsym (frames ++ [targetAngle]) s (1, 0) hpos0]
  rfl

end CubeBridge

section RealTrig

theorem pmul_one_right {R : Type} [LinearOrderedField R] (p : R × R) :
    pmul p ((1 : R), (0 : R)) = p := by
  simp [pmul]

/-- For the honest oracle, composing two cosine/sine pairs is the pair of
the summed angles. -/
theorem realPair_pmul (a b : ℝ) :
    pmul (Real.cos a, Real.sin a) (Real.cos b, Real.sin b)
      = (Real.cos (a + b), Real.sin (a + b)) := by
  simp [pmul, Real.cos_add, Real.sin_add]

theorem incPairProd_fold_real (angles : List ℝ) :
    ∀ (P : ℝ × ℝ) (θ₀ : ℝ),
      ((angles.foldl
          (fun acc θ =>
            (pmul ((⟨Real.cos, Real.sin, Real.pi⟩ : TrigOracle ℝ).pair (θ - acc.2)) acc.1, θ))
          (P, θ₀)).1)
        = pmul (Real.cos (angles.getLastD θ₀ - θ₀), Real.sin (angles.getLastD θ₀ - θ₀)) P := by
  induction angles with
  | nil =>
    intro P θ₀
    simp [pmul_one_left]
  | cons θ1 rest ih =>
    intro P θ₀
    simp only [List.foldl_cons, List.getLastD_cons]
    rw [ih]
    rw [← pmul_assoc]
    congr 1
    show pmul (Real.cos _, Real.sin _) (Real.cos _, Real.sin _) = _
    rw [realPair_pmul]
    have harg : rest.getLastD θ1 - θ1 + (θ1 - θ₀) = rest.getLastD θ1 - θ₀ := by ring
    rw [harg]

/-- The net rotation pair of a completed animation under the honest
oracle: the incremental frame rotations telescope to the rotation from the
initial stored angle to the final target angle. -/
theorem incPairProd_concat_real (frames : List ℝ) (target θ₀ : ℝ) :
    incPairProd (⟨Real.cos, Real.sin, Real.pi⟩ : TrigOracle ℝ) θ₀ (frames ++ [target])
      = (Real.cos (target - θ₀), Real.sin (target - θ₀)) := by
  unfold incPairProd
  rw [incPairProd_fold_real]
  rw [List.getLastD_concat, pmul_one_right]

/-- A completed clockwise run under the honest oracle composes to the
exact quarter-turn pair `(0, 1)`. -/
theorem incPairProd_quarter_real (frames : List ℝ) :
    incPairProd (⟨Real.cos, Real.sin, Real.pi⟩ : TrigOracle ℝ) 0 (frames ++ [Real.pi / 2])
      = ((0 : ℝ), (1 : ℝ)) := by
  rw [incPairProd_concat_real]
  simp [Real.cos_pi_div_two, Real.sin_pi_div_two]

/-- A completed counterclockwise run composes to `(0, -1)`. -/
theorem incPairProd_quarter_real_neg (frames : List ℝ) :
    incPairProd (⟨Real.cos, Real.sin, Real.pi⟩ : TrigOracle ℝ) 0 (frames ++ [-(Real.pi / 2)])
      = ((0 : ℝ), (-1 : ℝ)) := by
  rw [incPairProd_concat_real]
  simp [Real.cos_pi_div_two, Real.sin_pi_div_two]

end RealTrig

section GridFacts

variable {R : Type} [LinearOrderedField R]

theorem calculateGroupCenter_perm {l₁ l₂ : List (Vec3 R)} (h : l₁.Perm l₂) :
    RubiksCube.calculateGroupCenter l₁ = RubiksCube.calculateGroupCenter l₂ := by
  unfold RubiksCube.calculateGroupCenter
  rw [coordCenter_perm (h.map Vec3.x), coordCenter_perm (h.map Vec3.y),
    coordCenter_perm (h.map Vec3.z)]

theorem isInSection_of_perm {l₁ l₂ : List (Vec3 R)} (h : l₁.Perm l₂) (v : Vec3 R) (a : Axis)
    (sec : Fin 3) : RubiksCube.isInSection l₁ v a sec = RubiksCube.isInSection l₂ v a sec :=
  isInSection_congr_get (congrArg (fun c => Vec3.get c a) (calculateGroupCenter_perm h)) rfl

theorem getSectionCubes_perm {l₁ l₂ : List (Vec3 R)} (h : l₁.Perm l₂) (a : Axis) (sec : Fin 3) :
    (RubiksCube.getSectionCubes l₁ a sec).Perm (RubiksCube.getSectionCubes l₂ a sec) := by
  unfold RubiksCube.getSectionCubes
  rw [List.filter_congr (fun v _ => isInSection_of_perm h v a sec)]
  exact h.filter _

set_option maxRecDepth 40000 in
unseal Rat.add Rat.mul Rat.inv Rat.sub Rat.ofScientific in
/-- The freshly constructed grid has its bounding-box center at the
origin. -/
theorem grid_center :
    RubiksCube.calculateGroupCenter (initPositions ℚ) = ⟨0, 0, 0⟩ := by decide

set_option maxRecDepth 40000 in
unseal Rat.add Rat.mul Rat.inv Rat.sub Rat.ofScientific in
/-- The grid is point-symmetric about the origin. -/
theorem grid_pointSymm : pointSymm (⟨0, 0, 0⟩ : Vec3 ℚ) (initPositions ℚ) := by
  unfold pointSymm
  decide

set_option maxRecDepth 40000 in
unseal Rat.add Rat.mul Rat.inv Rat.sub Rat.ofScientific in
/-- Every slice of the grid is point-symmetric about its own bounding-box
center. -/
theorem grid_slice_pointSymm : ∀ (a : Axis) (sec : Fin 3),
    pointSymm
      (RubiksCube.calculateGroupCenter (RubiksCube.getSectionCubes (initPositions ℚ) a sec))
      (RubiksCube.getSectionCubes (initPositions ℚ) a sec) := by
  unfold pointSymm
  decide

set_option maxRecDepth 40000 in
unseal Rat.add Rat.mul Rat.inv Rat.sub Rat.ofScientific in
/-- On the grid, every slice of every axis has exactly 9 pieces. -/
theorem grid_slice_length : ∀ (a : Axis) (sec : Fin 3),
    (RubiksCube.getSectionCubes (initPositions ℚ) a sec).length = 9 := by decide

theorem grid_length : (initPositions ℚ).length = 27 := by decide

theorem grid_ne_nil : initPositions ℚ ≠ [] := by decide

set_option maxRecDepth 40000 in
unseal Rat.add Rat.mul Rat.inv Rat.sub Rat.ofScientific in
/-- A quarter-turn of the whole grid about its center permutes the grid. -/
theorem grid_cube_quarter_perm : ∀ (axy : AxisXY) (cw : Bool),
    ((initPositions ℚ).map (rotAroundPivotP axy.toAxis ((0 : ℚ), if cw then 1 else -1)
      (RubiksCube.calculateGroupCenter (initPositions ℚ)))).Perm (initPositions ℚ) := by
  intro axy cw
  rw [← Multiset.coe_eq_coe]
  revert axy cw
  decide

set_option maxRecDepth 40000 in
unseal Rat.add Rat.mul Rat.inv Rat.sub Rat.ofScientific in
/-- A quarter-turn of one slice of the grid about the slice's center
permutes the grid. -/
theorem grid_slice_quarter_perm : ∀ (a : Axis) (sec : Fin 3) (cw : Bool),
    ((initPositions ℚ).map (fun v =>
      if RubiksCube.isInSection (initPositions ℚ) v a sec
      then rotAroundPivotP a ((0 : ℚ), if cw then 1 else -1)
        (RubiksCube.calculateGroupCenter (RubiksCube.getSectionCubes (initPositions ℚ) a sec)) v
      else v)).Perm (initPositions ℚ) := by
  intro a sec cw
  rw [← Multiset.coe_eq_coe]
  revert a sec cw
  decide

set_option maxRecDepth 40000 in
unseal Rat.add Rat.mul Rat.inv Rat.sub Rat.ofScientific in
/-- Every grid position has coordinates in `{-1, 0, 1}`. -/
theorem grid_coords : ∀ v ∈ initPositions ℚ,
    (v.x = -1 ∨ v.x = 0 ∨ v.x = 1) ∧ (v.y = -1 ∨ v.y = 0 ∨ v.y = 1)
      ∧ (v.z = -1 ∨ v.z = 0 ∨ v.z = 1) := by decide

end GridFacts

section RestInvariant

/-- Structural invariant of rest states: the positions are a permutation
of the 27 grid positions (so the multiset of grid identities never
changes), and no gesture angle is stored. -/
theorem restReachable_invariant {s : CubeState ℚ} (h : RestReachable ℚ s) :
    s.positions.Perm (initPositions ℚ) ∧ s.rotationAngle = none := by
  induction h with
  | init => exact ⟨List.Perm.refl _, rfl⟩
  | cube T axis cw frames s hP hs ih =>
    rcases ih with ⟨hperm, hangle⟩
    unfold RubiksCube.rotateCube
    by_cases hguard : (s.isTranforming || s.initialIntersect.isSome) = true
    · rw [if_pos hguard]
      exact ⟨hperm, hangle⟩
    · rw [if_neg hguard]
      have hne : s.positions ≠ [] := by
        intro hnil
        rw [hnil] at hperm
        exact grid_ne_nil hperm.symm.eq_nil
      have hcent : RubiksCube.calculateGroupCenter s.positions = ⟨0, 0, 0⟩ :=
        (calculateGroupCenter_perm hperm).trans grid_center
      have hsym : pointSymm (RubiksCube.calculateGroupCenter s.positions) s.positions := by
        rw [hcent]
        exact pointSymm_perm hperm.symm grid_pointSymm
      have hne' : ({ s with isTranforming := true } : CubeState ℚ).positions ≠ [] := hne
      have hsym' : pointSymm
          (RubiksCube.calculateGroupCenter
            ({ s with isTranforming := true } : CubeState ℚ).positions)
          ({ s with isTranforming := true } : CubeState ℚ).positions := hsym
      rw [animateCubeRotation_shape T axis _ frames _ hne' hsym']
      refine ⟨?_, rfl⟩
      simp only [hangle, Option.getD_none, hcent]
      rw [hP]
      have h1 : (s.positions.map (rotAroundPivotP axis.toAxis
            ((0 : ℚ), if cw then 1 else -1) ⟨0, 0, 0⟩)).Perm
          ((initPositions ℚ).map (rotAroundPivotP axis.toAxis
            ((0 : ℚ), if cw then 1 else -1) ⟨0, 0, 0⟩)) :=
        hperm.map _
      have h2 := grid_cube_quarter_perm axis cw
      rw [grid_center] at h2
      exact h1.trans h2
  | slice T a sec cw frames s hP hs ih =>
    rcases ih with ⟨hperm, hangle⟩
    unfold RubiksCube.rotate
    by_cases hguard : s.isTranforming = true
    · rw [if_pos hguard]
      exact ⟨hperm, hangle⟩
    · rw [if_neg hguard]
      have hsliceperm := getSectionCubes_perm hperm a sec
      have hslicecent : RubiksCube.calculateGroupCenter
            (RubiksCube.getSectionCubes s.positions a sec)
          = RubiksCube.calculateGroupCenter
            (RubiksCube.getSectionCubes (initPositions ℚ) a sec) :=
        calculateGroupCenter_perm hsliceperm
      have hsym : pointSymm
          (RubiksCube.calculateGroupCenter (RubiksCube.getSectionCubes s.positions a sec))
          (RubiksCube.getSectionCubes s.positions a sec) := by
        rw [hslicecent]
        exact pointSymm_perm hsliceperm.symm (grid_slice_pointSymm a sec)
      have hsym' : pointSymm
          (RubiksCube.calculateGroupCenter
            (RubiksCube.getSectionCubes
              ({ s with isTranforming := true } : CubeState ℚ).positions a sec))
          (RubiksCube.getSectionCubes
            ({ s with isTranforming := true } : CubeState ℚ).positions a sec) := hsym
      rw [animateSectionRotation_shape T a sec _ frames _ hsym']
      refine ⟨?_, rfl⟩
      simp only [hangle, Option.getD_none, hslicecent]
      rw [hP]
      have heqmap : s.positions.map (fun v =>
            if RubiksCube.isInSection s.positions v a sec
            then rotAroundPivotP a ((0 : ℚ), if cw then 1 else -1)
              (RubiksCube.calculateGroupCenter
                (RubiksCube.getSectionCubes (initPositions ℚ) a sec)) v
            else v)
          = s.positions.map (fun v =>
            if RubiksCube.isInSection (initPositions ℚ) v a sec
            then rotAroundPivotP a ((0 : ℚ), if cw then 1 else -1)
              (RubiksCube.calculateGroupCenter
                (RubiksCube.getSectionCubes (initPositions ℚ) a sec)) v
            else v) := by
        exact List.map_congr_left (fun v _ => by rw [isInSection_of_perm hperm v a sec])
      rw [heqmap]
      exact (hperm.map _).trans (grid_slice_quarter_perm a sec cw)

end RestInvariant

section InitLemmas

variable {R : Type} [LinearOrderedField R]

/-- The 27 grid positions, unfolded in construction order (`x` outer,
`z` innermost). -/
theorem initPositions_eq :
    initPositions R =
      [⟨-1, -1, -1⟩, ⟨-1, -1, 0⟩, ⟨-1, -1, 1⟩, ⟨-1, 0, -1⟩, ⟨-1, 0, 0⟩, ⟨-1, 0, 1⟩,
        ⟨-1, 1, -1⟩, ⟨-1, 1, 0⟩, ⟨-1, 1, 1⟩, ⟨0, -1, -1⟩, ⟨0, -1, 0⟩, ⟨0, -1, 1⟩,
        ⟨0, 0, -1⟩, ⟨0, 0, 0⟩, ⟨0, 0, 1⟩, ⟨0, 1, -1⟩, ⟨0, 1, 0⟩, ⟨0, 1, 1⟩,
        ⟨1, -1, -1⟩, ⟨1, -1, 0⟩, ⟨1, -1, 1⟩, ⟨1, 0, -1⟩, ⟨1, 0, 0⟩, ⟨1, 0, 1⟩,
        ⟨1, 1, -1⟩, ⟨1, 1, 0⟩, ⟨1, 1, 1⟩] := rfl

theorem initPositions_ne_nil : initPositions R ≠ [] := by
  rw [initPositions_eq]
  simp

theorem initPositions_reflect :
    (initPositions R).map (reflect ⟨0, 0, 0⟩) = (initPositions R).reverse := by
  rw [initPositions_eq]
  simp only [List.map_cons, List.map_nil, reflect, Vec3.add_def, Vec3.sub_def, List.reverse_cons,
    List.reverse_nil, List.nil_append, List.cons_append, List.append_nil]
  norm_num

/-- The grid is point-symmetric about the origin (over any ordered
field). -/
theorem initPositions_pointSymm : pointSymm (⟨0, 0, 0⟩ : Vec3 R) (initPositions R) := by
  unfold pointSymm
  rw [initPositions_reflect]
  exact (initPositions R).reverse_perm

theorem listMin_initX : listMin ((initPositions R).map Vec3.x) = some (-1) := by
  rw [initPositions_eq]
  refine listMin_eq_some_iff.2 ⟨by simp, ?_⟩
  intro x hx
  simp only [List.map_cons, List.map_nil, List.mem_cons, List.not_mem_nil, or_false] at hx
  rcases hx with rfl | rfl | rfl | rfl | rfl | rfl | rfl | rfl | rfl | rfl | rfl | rfl | rfl
    | rfl | rfl | rfl | rfl | rfl | rfl | rfl | rfl | rfl | rfl | rfl | rfl | rfl | rfl <;>
    norm_num

theorem listMax_initX : listMax ((initPositions R).map Vec3.x) = some 1 := by
  rw [initPositions_eq]
  refine listMax_eq_some_iff.2 ⟨by simp, ?_⟩
  intro x hx
  simp only [List.map_cons, List.map_nil, List.mem_cons, List.not_mem_nil, or_false] at hx
  rcases hx with rfl | rfl | rfl | rfl | rfl | rfl | rfl | rfl | rfl | rfl | rfl | rfl | rfl
    | rfl | rfl | rfl | rfl | rfl | rfl | rfl | rfl | rfl | rfl | rfl | rfl | rfl | rfl <;>
    norm_num

theorem initPositions_center :
    RubiksCube.calculateGroupCenter (initPositions R) = ⟨0, 0, 0⟩ := by
  have hx := pointSymm_center (c := (⟨0, 0, 0⟩ : Vec3 R)) initPositions_ne_nil
    initPositions_pointSymm
  exact hx

end InitLemmas

section ClaimC1

/-- C1 counterexample: the claim states that every transform entry point,
including `explodeAndReassemble` running via `runTransformation`, refuses
to start and leaves all state unchanged when `isTransforming` is already
true.  At the concrete locked state below, `explodeAndReassemble` does
run: the transformation executes and `runTransformation` afterwards
clears the lock, so the state is changed (the flag the caller held is
lost, and with an empty random-target list the positions are clobbered as
well). -/
theorem C1_counterexample :
    explodeAndReassemble (R := ℚ) [] [] [] { initState ℚ with isTranforming := true }
      ≠ ({ initState ℚ with isTranforming := true } : CubeState ℚ) := by
  intro h
  have hflag := congrArg CubeState.isTranforming h
  simp only [explodeAndReassemble, RubiksCube.runTransformation] at hflag
  exact Bool.false_ne_true hflag

/-- C1 amended: while `isTransforming` is true, `rotateCube`, `rotate`
(hence every shuffle turn) refuse to start and leave the state unchanged;
`runTransformation`, however — through which `explodeAndReassemble` runs —
performs no check: it runs the transformation unconditionally and on
completion sets `isTransforming` to `false`, releasing a lock it never
legitimately acquired. -/
theorem C1_amended {R : Type} [LinearOrderedField R] (s : CubeState R)
    (h : s.isTranforming = true) :
    (∀ (T : TrigOracle R) (axis : AxisXY) (cw : Bool) (frames : List R),
      RubiksCube.rotateCube T axis cw frames s = s)
    ∧ (∀ (T : TrigOracle R) (axis : Axis) (sec : Fin 3) (cw : Bool) (frames : List R),
      RubiksCube.rotate T axis sec cw frames s = s)
    ∧ (∀ t : CubeState R → CubeState R,
      (RubiksCube.runTransformation t s).isTranforming = false
        ∧ RubiksCube.runTransformation t s = { t { s with isTranforming := true } with
            isTranforming := false })
    ∧ (∀ (randoms : List (Vec3 R)) (ts1 ts2 : List R),
      (explodeAndReassemble randoms ts1 ts2 s).isTranforming = false) := by
  refine ⟨?_, ?_, ?_, ?_⟩
  · intro T axis cw frames
    unfold RubiksCube.rotateCube
    rw [if_pos]
    rw [h]
    rfl
  · intro T axis sec cw frames
    unfold RubiksCube.rotate
    rw [if_pos h]
  · intro t
    exact ⟨rfl, rfl⟩
  · intro randoms ts1 ts2
    rfl

/-- Witness for `C1_amended` at a concrete locked state. -/
theorem C1_witness :
    ({ initState ℚ with isTranforming := true } : CubeState ℚ).isTranforming = true
    ∧ RubiksCube.rotate ⟨id, id, 0⟩ Axis.x 0 true []
        ({ initState ℚ with isTranforming := true } : CubeState ℚ)
      = ({ initState ℚ with isTranforming := true } : CubeState ℚ) :=
  ⟨rfl, (C1_amended { initState ℚ with isTranforming := true } rfl).2.1 ⟨id, id, 0⟩
    Axis.x 0 true []⟩

end ClaimC1

section ClaimC2

/-- C2: contention is a silent no-op.  For every cube state in which
`isTransforming` is true, calls to `rotateCube`, `rotate`, and `shuffle`
with any arguments leave the position of every cell unchanged.  (The
models are total functions — none of these code paths contains a `throw` —
so no error is raised either.) -/
theorem C2_contention_noop {R : Type} [LinearOrderedField R] (s : CubeState R)
    (h : s.isTranforming = true) :
    (∀ (T : TrigOracle R) (axis : AxisXY) (cw : Bool) (frames : List R),
      (RubiksCube.rotateCube T axis cw frames s).positions = s.positions)
    ∧ (∀ (T : TrigOracle R) (axis : Axis) (sec : Fin 3) (cw : Bool) (frames : List R),
      (RubiksCube.rotate T axis sec cw frames s).positions = s.positions)
    ∧ (∀ (T : TrigOracle R) (pick : ℕ → RubiksCube.ShuffleChoice) (framesOf : ℕ → List R)
        (turns : ℕ) (tr : List RubiksCube.ShuffleEvent),
      (RubiksCube.shuffle T pick framesOf turns (s, tr)).1.positions = s.positions) := by
  refine ⟨?_, ?_, ?_⟩
  · intro T axis cw frames
    unfold RubiksCube.rotateCube
    rw [if_pos]
    rw [h]
    rfl
  · intro T axis sec cw frames
    unfold RubiksCube.rotate
    rw [if_pos h]
  · intro T pick framesOf turns tr
    cases turns with
    | zero => rfl
    | succ n =>
      show (RubiksCube.rotateWithCallback T _ _ _ _ _ (s, tr)).1.positions = s.positions
      unfold RubiksCube.rotateWithCallback
      rw [if_pos h]

/-- Witness for `C2_contention_noop`: a locked cube ignores a `shuffle`
request without moving any cell. -/
theorem C2_witness :
    ({ initState ℚ with isTranforming := true } : CubeState ℚ).isTranforming = true
    ∧ (RubiksCube.shuffle ⟨id, id, 0⟩ (fun _ => ⟨Axis.x, 0, true⟩) (fun _ => []) 5
        ({ initState ℚ with isTranforming := true }, [])).1.positions
      = ({ initState ℚ with isTranforming := true } : CubeState ℚ).positions :=
  ⟨rfl, (C2_contention_noop { initState ℚ with isTranforming := true } rfl).2.2 ⟨id, id, 0⟩
    (fun _ => ⟨Axis.x, 0, true⟩) (fun _ => []) 5 []⟩

end ClaimC2

section ClaimC3

/-- The exact quarter-turn about the `x`-axis through the origin sends
`(x, y, z)` to `(x, -z, y)`. -/
theorem rotAroundPivotP_quarterX {R : Type} [LinearOrderedField R] (v : Vec3 R) :
    rotAroundPivotP Axis.x ((0 : R), (1 : R)) ⟨0, 0, 0⟩ v = ⟨v.x, -v.z, v.y⟩ := by
  cases v
  simp only [rotAroundPivotP, rotAxisP, Vec3.sub_def, Vec3.add_def, Vec3.mk.injEq]
  refine ⟨by ring, by ring, by ring⟩

/-- C3: quarter-turn exactness of `rotateCube`.
Part 1 (the `duration: 0` scenario, and in fact any frame schedule): with
the honest trig oracle, a freshly constructed cube on which
`rotateCube('x', 'clockwise', …)` runs to completion has, at the moment
the completion callback fires, every cell's X-coordinate unchanged and
its Y/Z coordinates exactly those of a rotation by `π/2` about the X axis
through the cube's center — the deterministic expected position
`(x, -z, y)` for each of the 27 cells.  (With `duration: 0` the first
frame already has `progress = 1`, i.e. `frames = []`.)
Part 2: after any sequence of completed (non-interrupted) programmatic
rotations, every cell position is an exact multiple of the grid pitch
(1 unit) in each axis. -/
theorem C3_quarter_turn_exact :
    (∀ frames : List ℝ,
      (RubiksCube.rotateCube (⟨Real.cos, Real.sin, Real.pi⟩ : TrigOracle ℝ) AxisXY.x true frames
        (initState ℝ)).positions
      = (initPositions ℝ).map (fun v => ⟨v.x, -v.z, v.y⟩))
    ∧ (∀ s : CubeState ℚ, RestReachable ℚ s → ∀ v ∈ s.positions,
      (∃ i : ℤ, v.x = (i : ℚ)) ∧ (∃ j : ℤ, v.y = (j : ℚ)) ∧ (∃ k : ℤ, v.z = (k : ℚ))) := by
  constructor
  · intro frames
    unfold RubiksCube.rotateCube
    rw [if_neg (by simp [initState])]
    have hne : ({ initState ℝ with isTranforming := true } : CubeState ℝ).positions ≠ [] :=
      initPositions_ne_nil
    have hsym : pointSymm
        (RubiksCube.calculateGroupCenter
          ({ initState ℝ with isTranforming := true } : CubeState ℝ).positions)
        ({ initState ℝ with isTranforming := true } : CubeState ℝ).positions := by
      show pointSymm (RubiksCube.calculateGroupCenter (initPositions ℝ)) (initPositions ℝ)
      rw [initPositions_center]
      exact initPositions_pointSymm
    rw [animateCubeRotation_shape _ _ _ _ _ hne hsym]
    show (initPositions ℝ).map _ = _
    have hpair : incPairProd (⟨Real.cos, Real.sin, Real.pi⟩ : TrigOracle ℝ)
        (({ initState ℝ with isTranforming := true } : CubeState ℝ).rotationAngle.getD 0)
        (frames ++ [if true = true then
          (⟨Real.cos, Real.sin, Real.pi⟩ : TrigOracle ℝ).pi / 2
          else -((⟨Real.cos, Real.sin, Real.pi⟩ : TrigOracle ℝ).pi / 2)])
        = ((0 : ℝ), (1 : ℝ)) := by
      simp only [if_true]
      exact incPairProd_quarter_real frames
    rw [hpair]
    apply List.map_congr_left
    intro v _
    show rotAroundPivotP (AxisXY.x).toAxis ((0 : ℝ), (1 : ℝ))
      (RubiksCube.calculateGroupCenter (initPositions ℝ)) v = _
    rw [initPositions_center]
    exact rotAroundPivotP_quarterX v
  · intro s hs v hv
    have hperm := (restReachable_invariant hs).1
    have hvg : v ∈ initPositions ℚ := hperm.mem_iff.1 hv
    have hco := grid_coords v hvg
    refine ⟨?_, ?_, ?_⟩
    · rcases hco.1 with h | h | h
      · exact ⟨-1, by rw [h]; norm_num⟩
      · exact ⟨0, by rw [h]; norm_num⟩
      · exact ⟨1, by rw [h]; norm_num⟩
    · rcases hco.2.1 with h | h | h
      · exact ⟨-1, by rw [h]; norm_num⟩
      · exact ⟨0, by rw [h]; norm_num⟩
      · exact ⟨1, by rw [h]; norm_num⟩
    · rcases hco.2.2 with h | h | h
      · exact ⟨-1, by rw [h]; norm_num⟩
      · exact ⟨0, by rw [h]; norm_num⟩
      · exact ⟨1, by rw [h]; norm_num⟩

set_option maxRecDepth 40000 in
unseal Rat.add Rat.mul Rat.inv Rat.sub Rat.ofScientific in
/-- Witness for `C3_quarter_turn_exact` at a concrete rest-reachable state
and a concrete cell. -/
theorem C3_witness :
    RestReachable ℚ (initState ℚ)
    ∧ (⟨-1, -1, -1⟩ : Vec3 ℚ) ∈ (initState ℚ).positions
    ∧ ((∃ i : ℤ, ((⟨-1, -1, -1⟩ : Vec3 ℚ)).x = (i : ℚ))
      ∧ (∃ j : ℤ, ((⟨-1, -1, -1⟩ : Vec3 ℚ)).y = (j : ℚ))
      ∧ (∃ k : ℤ, ((⟨-1, -1, -1⟩ : Vec3 ℚ)).z = (k : ℚ))) :=
  ⟨RestReachable.init, by decide,
    C3_quarter_turn_exact.2 (initState ℚ) RestReachable.init ⟨-1, -1, -1⟩ (by decide)⟩

end ClaimC3

section SectionClassifier

variable {R : Type} [LinearOrderedField R]

/-- The three inequality cases of `isInSection` agree with the
`getSection` decision rule applied to the center-relative scalar
`v = position[axis] - groupCenter[axis]`. -/
theorem isInSection_iff_getSection (children : List (Vec3 R)) (pos : Vec3 R) (a : Axis)
    (sec : Fin 3) :
    RubiksCube.isInSection children pos a sec = true
      ↔ RubiksCube.getSection
          (pos.get a - (RubiksCube.calculateGroupCenter children).get a) = sec := by
  set cA := (RubiksCube.calculateGroupCenter children).get a with hcA
  set val := pos.get a with hval
  by_cases h1 : val - cA < -(1 / 2)
  · have e1 : RubiksCube.getSection (val - cA) = 0 := by
      unfold RubiksCube.getSection
      rw [if_pos h1]
    have b1 : val < cA - 1 / 2 := by linarith
    have b2 : ¬(cA - 1 / 2 ≤ val) := by linarith
    have b3 : ¬(val > cA + 1 / 2) := by linarith
    fin_cases sec
    · show (decide (val < cA - 1 / 2)) = true ↔ RubiksCube.getSection (val - cA) = 0
      simp only [decide_eq_true_eq, e1]
      exact iff_of_true b1 trivial
    · show (decide (cA - 1 / 2 ≤ val) && decide (val ≤ cA + 1 / 2)) = true
        ↔ RubiksCube.getSection (val - cA) = 1
      simp only [Bool.and_eq_true, decide_eq_true_eq, e1]
      constructor
      · intro h
        exact absurd h.1 b2
      · intro h
        exact absurd h (by decide)
    · show (decide (val > cA + 1 / 2)) = true ↔ RubiksCube.getSection (val - cA) = 2
      simp only [decide_eq_true_eq, e1]
      constructor
      · intro h
        exact absurd h b3
      · intro h
        exact absurd h (by decide)
  · by_cases h2 : val - cA > 1 / 2
    · have e1 : RubiksCube.getSection (val - cA) = 2 := by
        unfold RubiksCube.getSection
        rw [if_neg h1, if_pos h2]
      have b1 : ¬(val < cA - 1 / 2) := by linarith
      have b3 : val > cA + 1 / 2 := by linarith
      have b2 : ¬(val ≤ cA + 1 / 2) := by linarith
      fin_cases sec
      · show (decide (val < cA - 1 / 2)) = true ↔ RubiksCube.getSection (val - cA) = 0
        simp only [decide_eq_true_eq, e1]
        constructor
        · intro h
          exact absurd h b1
        · intro h
          exact absurd h (by decide)
      · show (decide (cA - 1 / 2 ≤ val) && decide (val ≤ cA + 1 / 2)) = true
          ↔ RubiksCube.getSection (val - cA) = 1
        simp only [Bool.and_eq_true, decide_eq_true_eq, e1]
        constructor
        · intro h
          exact absurd h.2 b2
        · intro h
          exact absurd h (by decide)
      · show (decide (val > cA + 1 / 2)) = true ↔ RubiksCube.getSection (val - cA) = 2
        simp only [decide_eq_true_eq, e1]
        exact iff_of_true b3 trivial
    · have e1 : RubiksCube.getSection (val - cA) = 1 := by
        unfold RubiksCube.getSection
        rw [if_neg h1, if_neg h2]
      have b1 : ¬(val < cA - 1 / 2) := by
        intro hlt
        exact h1 (by linarith)
      have b2 : cA - 1 / 2 ≤ val := by
        by_contra hb
        exact h1 (by linarith)
      have b3 : val ≤ cA + 1 / 2 := by
        by_contra hb
        exact h2 (by linarith)
      have b4 : ¬(val > cA + 1 / 2) := by linarith
      fin_cases sec
      · show (decide (val < cA - 1 / 2)) = true ↔ RubiksCube.getSection (val - cA) = 0
        simp only [decide_eq_true_eq, e1]
        constructor
        · intro h
          exact absurd h b1
        · intro h
          exact absurd h (by decide)
      · show (decide (cA - 1 / 2 ≤ val) && decide (val ≤ cA + 1 / 2)) = true
          ↔ RubiksCube.getSection (val - cA) = 1
        simp only [Bool.and_eq_true, decide_eq_true_eq, e1]
        exact iff_of_true ⟨b2, b3⟩ trivial
      · show (decide (val > cA + 1 / 2)) = true ↔ RubiksCube.getSection (val - cA) = 2
        simp only [decide_eq_true_eq, e1]
        constructor
        · intro h
          exact absurd h b4
        · intro h
          exact absurd h (by decide)

/-- Every position is classified into exactly one of the three slices
along any axis, for any group center. -/
theorem isInSection_existsUnique (children : List (Vec3 R)) (pos : Vec3 R) (a : Axis) :
    ∃! sec : Fin 3, RubiksCube.isInSection children pos a sec = true := by
  refine ⟨RubiksCube.getSection
    (pos.get a - (RubiksCube.calculateGroupCenter children).get a), ?_, ?_⟩
  · exact (isInSection_iff_getSection children pos a _).2 rfl
  · intro y hy
    exact ((isInSection_iff_getSection children pos a y).1 hy).symm

end SectionClassifier

section ClaimC4

set_option maxRecDepth 100000 in
unseal Rat.add Rat.mul Rat.inv Rat.sub Rat.ofScientific in
/-- C4 counterexample: the slice partition is *not* 9/9/9 for every axis
at every reachable state.  One processed gesture move rotating slice 0 of
the x-axis by the (exactly representable) angle with cosine `80/89` and
sine `39/89` — a unit pair with nonnegative cosine, hence a legal
incremental gesture rotation — yields a reachable mid-gesture state whose
y-axis slice 0 contains 8 cells, not 9. -/
theorem C4_counterexample :
    ¬ (∀ s : CubeState ℚ, Reachable ℚ s → ∀ (a : Axis) (sec : Fin 3),
        (RubiksCube.getSectionCubes s.positions a sec).length = 9) := by
  intro hclaim
  have hreach : Reachable ℚ
      (gestureMove Axis.x 0 Axis.y (80 / 89) (39 / 89) ⟨0, 0, 0⟩ ⟨0, 0, 0⟩ 0 0 0
        (initState ℚ)) :=
    Reachable.gesture Axis.x 0 Axis.y (80 / 89) (39 / 89) ⟨0, 0, 0⟩ ⟨0, 0, 0⟩ 0 0 0
      (initState ℚ) (by norm_num) (by norm_num)
      (Reachable.rest (initState ℚ) RestReachable.init)
  have h9 := hclaim _ hreach Axis.y 0
  have h8 : (RubiksCube.getSectionCubes
      (gestureMove Axis.x 0 Axis.y (80 / 89) (39 / 89) ⟨0, 0, 0⟩ ⟨0, 0, 0⟩ 0 0 0
        (initState ℚ)).positions Axis.y 0).length = 8 := by decide
  rw [h8] at h9
  exact absurd h9 (by decide)

/-- C4 amended: at every *rest* state (reachable through completed
transforms, with no gesture in flight), for each axis the three sections
partition the 27 cells into three groups of 9; moreover every cell lies
in exactly one section of each axis.  During a gesture the partition is
only guaranteed along the axis being rotated (see `C4_counterexample`). -/
theorem C4_amended (s : CubeState ℚ) (h : RestReachable ℚ s) :
    s.positions.length = 27
    ∧ (∀ (a : Axis) (sec : Fin 3), (RubiksCube.getSectionCubes s.positions a sec).length = 9)
    ∧ (∀ (a : Axis) (v : Vec3 ℚ),
        ∃! sec : Fin 3, RubiksCube.isInSection s.positions v a sec = true) := by
  have hperm := (restReachable_invariant h).1
  refine ⟨?_, ?_, ?_⟩
  · rw [hperm.length_eq]
    exact grid_length
  · intro a sec
    rw [(getSectionCubes_perm hperm a sec).length_eq]
    exact grid_slice_length a sec
  · intro a v
    exact isInSection_existsUnique s.positions v a

set_option maxRecDepth 100000 in
unseal Rat.add Rat.mul Rat.inv Rat.sub Rat.ofScientific in
/-- Witness for `C4_amended` at the freshly constructed cube. -/
theorem C4_witness :
    RestReachable ℚ (initState ℚ)
    ∧ (RubiksCube.getSectionCubes (initState ℚ).positions Axis.x 0).length = 9 :=
  ⟨RestReachable.init, (C4_amended (initState ℚ) RestReachable.init).2.1 Axis.x 0⟩

end ClaimC4

section ClaimC5

/-- C5: slice classifier contract.  For every cell position, axis, and
group center (determined by an arbitrary children set), letting
`v = position[axis] - groupCenter[axis]`, the classifier `isInSection`
assigns exactly one section — and that section is `0` if `v < -0.5`, `2`
if `v > 0.5`, else `1`, which is precisely the decision rule of
`getSection`; both functions are total, so no input fails.  `getSection`
applied to the gesture's intersection-point coordinate implements the
same rule with the group center at the origin. -/
theorem C5_slice_classifier {R : Type} [LinearOrderedField R] (children : List (Vec3 R))
    (pos : Vec3 R) (a : Axis) :
    (∀ sec : Fin 3,
      RubiksCube.isInSection children pos a sec = true
        ↔ RubiksCube.getSection
            (pos.get a - (RubiksCube.calculateGroupCenter children).get a) = sec)
    ∧ (∃! sec : Fin 3, RubiksCube.isInSection children pos a sec = true)
    ∧ (∀ v : R, RubiksCube.getSection v
        = if v < -(1 / 2) then 0 else if v > 1 / 2 then 2 else 1) :=
  ⟨fun sec => isInSection_iff_getSection children pos a sec,
    isInSection_existsUnique children pos a,
    fun _ => rfl⟩

theorem C5_witness :
    ∃! sec : Fin 3,
      RubiksCube.isInSection (initPositions ℚ) ⟨-1, 0, 0⟩ Axis.x sec = true :=
  (C5_slice_classifier (initPositions ℚ) ⟨-1, 0, 0⟩ Axis.x).2.1

end ClaimC5

section MouseMoveLemmas

variable {R : Type} [LinearOrderedField R]

/-- `classifyMove` always stores the reset running angle `0`. -/
theorem classifyMove_rotationAngle (pt nrm : Vec3 R) (dX dY : R) (s : CubeState R) :
    (RubiksCube.classifyMove pt nrm dX dY s).rotationAngle = some 0 := by
  obtain ⟨pos, t, d, dx, dy, ii, sf, ra, rs, rang⟩ := s
  unfold RubiksCube.classifyMove
  cases ra <;> split_ifs <;> rfl

/-- `onMouseMove` on an armed gesture: after the dead-zone test, a locked
gesture routes to `setRotation`, an unlocked one to classification. -/
theorem onMouseMove_armed (T : TrigOracle R) (wW wH cX cY : R) (s : CubeState R)
    (pt nrm : Vec3 R) (sx sy : R)
    (hd : s.isDragging = true) (hi : s.initialIntersect = some (pt, nrm))
    (hx : s.dragStartX = some sx) (hy : s.dragStartY = some sy) :
    RubiksCube.onMouseMove T wW wH cX cY s
      = if |cX - sx| < 10 ∨ |cY - sy| < 10 then Except.ok s
        else match s.rotationAxis, s.rotationSection, s.rotationAngle with
          | some a, some sec, some _ =>
            RubiksCube.setRotation T wW wH s a sec (cX - sx) (cY - sy)
          | _, _, _ => Except.ok (RubiksCube.classifyMove pt nrm (cX - sx) (cY - sy) s) := by
  unfold RubiksCube.onMouseMove
  rw [hd, hi, hx, hy]
  simp only [Bool.not_true, Bool.false_eq_true, if_false, Bool.or_eq_true, decide_eq_true_eq]

end MouseMoveLemmas

section ClaimC6

set_option maxRecDepth 4000 in
unseal Rat.add Rat.mul Rat.inv Rat.sub Rat.ofScientific in
/-- C6 counterexample: the claim's dead-zone rule — a move is ignored iff
*both* deltas are under 10 pixels — is false.  At a concrete armed
gesture, the move with `deltaX = 50`, `deltaY = 5` (one delta far past
the threshold) is nevertheless dropped unchanged, because the source
tests `|deltaX| < 10 || |deltaY| < 10`: either small delta suffices to
ignore the move. -/
theorem C6_counterexample :
    ¬ (∀ (s : CubeState ℚ) (wW wH cX cY : ℚ) (pt nrm : Vec3 ℚ) (sx sy : ℚ),
        s.isDragging = true → s.initialIntersect = some (pt, nrm) →
        s.dragStartX = some sx → s.dragStartY = some sy → s.rotationAngle = none →
        (RubiksCube.onMouseMove ⟨id, id, 0⟩ wW wH cX cY s = Except.ok s
          ↔ (|cX - sx| < 10 ∧ |cY - sy| < 10))) := by
  intro hclaim
  have hok : RubiksCube.onMouseMove (R := ℚ) ⟨id, id, 0⟩ 1000 1000 150 105
      { initState ℚ with
        isDragging := true
        dragStartX := some 100
        dragStartY := some 100
        initialIntersect := some (⟨2, 0, 0⟩, ⟨0, 0, 1⟩) }
      = Except.ok { initState ℚ with
        isDragging := true
        dragStartX := some 100
        dragStartY := some 100
        initialIntersect := some (⟨2, 0, 0⟩, ⟨0, 0, 1⟩) } := by
    decide
  have h := (hclaim _ 1000 1000 150 105 ⟨2, 0, 0⟩ ⟨0, 0, 1⟩ 100 100
    rfl rfl rfl rfl rfl).1 hok
  have : ¬(|((150 : ℚ)) - 100| < 10) := by norm_num
  exact absurd h.1 this

/-- C6 amended: during an armed gesture whose axis/slice are not yet
locked, a pointer-move is ignored (no classification, state unchanged,
no error) if and only if `|deltaX| < 10` *or* `|deltaY| < 10`; a move
with both deltas of magnitude at least 10 is classified. -/
theorem C6_amended {R : Type} [LinearOrderedField R] (T : TrigOracle R) (wW wH cX cY : R)
    (s : CubeState R) (pt nrm : Vec3 R) (sx sy : R)
    (hd : s.isDragging = true) (hi : s.initialIntersect = some (pt, nrm))
    (hx : s.dragStartX = some sx) (hy : s.dragStartY = some sy)
    (hang : s.rotationAngle = none) :
    (RubiksCube.onMouseMove T wW wH cX cY s = Except.ok s
      ↔ (|cX - sx| < 10 ∨ |cY - sy| < 10))
    ∧ (¬(|cX - sx| < 10 ∨ |cY - sy| < 10) →
        RubiksCube.onMouseMove T wW wH cX cY s
          = Except.ok (RubiksCube.classifyMove pt nrm (cX - sx) (cY - sy) s)) := by
  rw [onMouseMove_armed T wW wH cX cY s pt nrm sx sy hd hi hx hy]
  by_cases hsmall : |cX - sx| < 10 ∨ |cY - sy| < 10
  · rw [if_pos hsmall]
    exact ⟨iff_of_true rfl hsmall, fun hn => absurd hsmall hn⟩
  · rw [if_neg hsmall]
    have hmatch : (match s.rotationAxis, s.rotationSection, s.rotationAngle with
        | some a, some sec, some _ =>
          RubiksCube.setRotation T wW wH s a sec (cX - sx) (cY - sy)
        | _, _, _ => Except.ok (RubiksCube.classifyMove pt nrm (cX - sx) (cY - sy) s))
        = Except.ok (RubiksCube.classifyMove pt nrm (cX - sx) (cY - sy) s) := by
      rcases hA : s.rotationAxis with _ | a <;> rcases hS : s.rotationSection with _ | sec <;>
        rw [hang]
    rw [hmatch]
    refine ⟨?_, fun _ => rfl⟩
    constructor
    · intro hok
      have hceq : RubiksCube.classifyMove pt nrm (cX - sx) (cY - sy) s = s :=
        Except.ok.inj hok
      have h0 := classifyMove_rotationAngle pt nrm (cX - sx) (cY - sy) s
      rw [hceq, hang] at h0
      exact absurd h0 (by simp)
    · intro hsm
      exact absurd hsm hsmall

/-- Witness for `C6_amended`: a small move (deltas 5 and 3) on a concrete
armed gesture is dropped unchanged. -/
theorem C6_witness :
    RubiksCube.onMouseMove (R := ℚ) ⟨id, id, 0⟩ 1000 1000 105 103
        { initState ℚ with
          isDragging := true
          dragStartX := some 100
          dragStartY := some 100
          initialIntersect := some (⟨2, 0, 0⟩, ⟨0, 0, 1⟩) }
      = Except.ok { initState ℚ with
          isDragging := true
          dragStartX := some 100
          dragStartY := some 100
          initialIntersect := some (⟨2, 0, 0⟩, ⟨0, 0, 1⟩) } :=
  (C6_amended ⟨id, id, 0⟩ 1000 1000 105 103 _ ⟨2, 0, 0⟩ ⟨0, 0, 1⟩ 100 100
    rfl rfl rfl rfl rfl).1.mpr (by norm_num)

end ClaimC6

section ClaimC7

variable {R : Type} [LinearOrderedField R]

/-- Classification of a processed move grabbing an X-facing face: the
rotation axis is `y` when `|deltaX| > |deltaY|`, else `z`. -/
theorem classifyMove_normalX (pt : Vec3 R) (nx dX dY : R) (s : CubeState R) (hnx : nx ≠ 0) :
    RubiksCube.classifyMove pt ⟨nx, 0, 0⟩ dX dY s
      = { s with
          rotationAngle := some 0
          rotationAxis := some (if |dX| > |dY| then Axis.y else Axis.z)
          selectedFace := some Axis.x
          rotationSection := some (RubiksCube.getSection
            (pt.get (if |dX| > |dY| then Axis.y else Axis.z))) } := by
  have h1 : ((⟨nx, 0, 0⟩ : Vec3 R).x ≠ 0) = True := by simp [hnx]
  have h2 : ((⟨nx, 0, 0⟩ : Vec3 R).y ≠ 0) = False := by simp
  have h3 : ((⟨nx, 0, 0⟩ : Vec3 R).z ≠ 0) = False := by simp
  unfold RubiksCube.classifyMove
  simp only [h1, h2, h3, if_true, if_false]

/-- Classification of a processed move grabbing a Y-facing face: the
rotation axis is `z` when `|deltaX| > |deltaY|`, else `x`. -/
theorem classifyMove_normalY (pt : Vec3 R) (ny dX dY : R) (s : CubeState R) (hny : ny ≠ 0) :
    RubiksCube.classifyMove pt ⟨0, ny, 0⟩ dX dY s
      = { s with
          rotationAngle := some 0
          rotationAxis := some (if |dX| > |dY| then Axis.z else Axis.x)
          selectedFace := some Axis.y
          rotationSection := some (RubiksCube.getSection
            (pt.get (if |dX| > |dY| then Axis.z else Axis.x))) } := by
  have h1 : ((⟨0, ny, 0⟩ : Vec3 R).x ≠ 0) = False := by simp
  have h2 : ((⟨0, ny, 0⟩ : Vec3 R).y ≠ 0) = True := by simp [hny]
  have h3 : ((⟨0, ny, 0⟩ : Vec3 R).z ≠ 0) = False := by simp
  unfold RubiksCube.classifyMove
  simp only [h1, h2, h3, if_true, if_false]

/-- Classification of a processed move grabbing a Z-facing face: the
rotation axis is `y` when `|deltaX| > |deltaY|`, else `x`. -/
theorem classifyMove_normalZ (pt : Vec3 R) (nz dX dY : R) (s : CubeState R) (hnz : nz ≠ 0) :
    RubiksCube.classifyMove pt ⟨0, 0, nz⟩ dX dY s
      = { s with
          rotationAngle := some 0
          rotationAxis := some (if |dX| > |dY| then Axis.y else Axis.x)
          selectedFace := some Axis.z
          rotationSection := some (RubiksCube.getSection
            (pt.get (if |dX| > |dY| then Axis.y else Axis.x))) } := by
  have h1 : ((⟨0, 0, nz⟩ : Vec3 R).x ≠ 0) = False := by simp
  have h2 : ((⟨0, 0, nz⟩ : Vec3 R).y ≠ 0) = False := by simp
  have h3 : ((⟨0, 0, nz⟩ : Vec3 R).z ≠ 0) = True := by simp [hnz]
  unfold RubiksCube.classifyMove
  simp only [h1, h2, h3, if_true, if_false]

set_option maxRecDepth 4000 in
unseal Rat.add Rat.mul Rat.inv Rat.sub Rat.ofScientific in
/-- C7 counterexample: the claim's concrete scenario — a drag on an
X-facing face with `|deltaX| = 50`, `|deltaY| = 5` resolves
`rotationAxis = 'y'` — is false on the code: that move sits inside the
`|deltaY| < 10` arm of the dead zone and is dropped, so no axis is
resolved at all (`rotationAxis` stays `none`). -/
theorem C7_counterexample :
    ¬ ((RubiksCube.onMouseMove (R := ℚ) ⟨id, id, 0⟩ 1000 1000 150 105
        { initState ℚ with
          isDragging := true
          dragStartX := some 100
          dragStartY := some 100
          initialIntersect := some (⟨2, 0, 0⟩, ⟨1, 0, 0⟩) }).map
          (fun s' => s'.rotationAxis)
      = Except.ok (some Axis.y)) := by
  decide

/-- C7 amended: for every gesture whose first *processed* move (both
deltas of magnitude at least 10) grabbed face `x`, the resolved axis is
`y` when `|deltaX| > |deltaY|` and `z` otherwise; for face `y` it is `z`
when `|deltaX| > |deltaY|` and `x` otherwise; for face `z` it is `y` when
`|deltaX| > |deltaY|` and `x` otherwise.  In particular a processed drag
on face `x` with `|deltaX| = 50 > |deltaY| = 15` resolves axis `y`, and
one with `|deltaY| = 50 > |deltaX| = 15` resolves axis `z`. -/
theorem C7_amended (T : TrigOracle R) (wW wH cX cY : R) (s : CubeState R)
    (pt : Vec3 R) (sx sy : R)
    (hd : s.isDragging = true) (hx : s.dragStartX = some sx) (hy : s.dragStartY = some sy)
    (hang : s.rotationAngle = none)
    (hbig : ¬(|cX - sx| < 10 ∨ |cY - sy| < 10)) :
    (∀ nx : R, nx ≠ 0 → s.initialIntersect = some (pt, ⟨nx, 0, 0⟩) →
      ∃ s', RubiksCube.onMouseMove T wW wH cX cY s = Except.ok s'
        ∧ s'.rotationAxis = some (if |cX - sx| > |cY - sy| then Axis.y else Axis.z)
        ∧ s'.selectedFace = some Axis.x)
    ∧ (∀ ny : R, ny ≠ 0 → s.initialIntersect = some (pt, ⟨0, ny, 0⟩) →
      ∃ s', RubiksCube.onMouseMove T wW wH cX cY s = Except.ok s'
        ∧ s'.rotationAxis = some (if |cX - sx| > |cY - sy| then Axis.z else Axis.x)
        ∧ s'.selectedFace = some Axis.y)
    ∧ (∀ nz : R, nz ≠ 0 → s.initialIntersect = some (pt, ⟨0, 0, nz⟩) →
      ∃ s', RubiksCube.onMouseMove T wW wH cX cY s = Except.ok s'
        ∧ s'.rotationAxis = some (if |cX - sx| > |cY - sy| then Axis.y else Axis.x)
        ∧ s'.selectedFace = some Axis.z) := by
  refine ⟨?_, ?_, ?_⟩
  · intro nx hnx hi
    refine ⟨RubiksCube.classifyMove pt ⟨nx, 0, 0⟩ (cX - sx) (cY - sy) s, ?_, ?_, ?_⟩
    · exact (C6_amended T wW wH cX cY s pt ⟨nx, 0, 0⟩ sx sy hd hi hx hy hang).2 hbig
    · rw [classifyMove_normalX pt nx (cX - sx) (cY - sy) s hnx]
    · rw [classifyMove_normalX pt nx (cX - sx) (cY - sy) s hnx]
  · intro ny hny hi
    refine ⟨RubiksCube.classifyMove pt ⟨0, ny, 0⟩ (cX - sx) (cY - sy) s, ?_, ?_, ?_⟩
    · exact (C6_amended T wW wH cX cY s pt ⟨0, ny, 0⟩ sx sy hd hi hx hy hang).2 hbig
    · rw [classifyMove_normalY pt ny (cX - sx) (cY - sy) s hny]
    · rw [classifyMove_normalY pt ny (cX - sx) (cY - sy) s hny]
  · intro nz hnz hi
    refine ⟨RubiksCube.classifyMove pt ⟨0, 0, nz⟩ (cX - sx) (cY - sy) s, ?_, ?_, ?_⟩
    · exact (C6_amended T wW wH cX cY s pt ⟨0, 0, nz⟩ sx sy hd hi hx hy hang).2 hbig
    · rw [classifyMove_normalZ pt nz (cX - sx) (cY - sy) s hnz]
    · rw [classifyMove_normalZ pt nz (cX - sx) (cY - sy) s hnz]

end ClaimC7

/-- Witness for `C7_amended`: the (dead-zone-passing) drag on an X-facing
face with `deltaX = 50`, `deltaY = 15` resolves `rotationAxis = 'y'`. -/
theorem C7_witness :
    ∃ s' : CubeState ℚ,
      RubiksCube.onMouseMove (R := ℚ) ⟨id, id, 0⟩ 1000 1000 150 115
          { initState ℚ with
            isDragging := true
            dragStartX := some 100
            dragStartY := some 100
            initialIntersect := some (⟨2, 0, 0⟩, ⟨1, 0, 0⟩) }
        = Except.ok s'
      ∧ s'.rotationAxis = some Axis.y
      ∧ s'.selectedFace = some Axis.x := by
  obtain ⟨s', h1, h2, h3⟩ :=
    (C7_amended ⟨id, id, 0⟩ 1000 1000 150 115
      { initState ℚ with
        isDragging := true
        dragStartX := some 100
        dragStartY := some 100
        initialIntersect := some (⟨2, 0, 0⟩, ⟨1, 0, 0⟩) }
      ⟨2, 0, 0⟩ 100 100 rfl rfl rfl rfl (by norm_num)).1 1 one_ne_zero rfl
  refine ⟨s', h1, ?_, h3⟩
  rw [h2, if_pos (by norm_num)]

section ClaimC8

variable {R : Type} [LinearOrderedField R]

/-- A `rotate` call always leaves the lock released: either it was
rejected (lock was never held by us... the rejected case keeps the
caller's state) or the animation ran to completion and cleared it. -/
theorem rotate_isTranforming (T : TrigOracle R) (axis : Axis) (sec : Fin 3) (cw : Bool)
    (frames : List R) (s : CubeState R) (h : s.isTranforming = false) :
    (RubiksCube.rotate T axis sec cw frames s).isTranforming = false := by
  unfold RubiksCube.rotate
  rw [h]
  rfl

/-- The recursive turn chain: starting unlocked, running `remaining`
turns appends exactly `remaining` per-turn completion events followed by
the single overall completion event. -/
theorem shuffleTurn_trace (T : TrigOracle R) (pick : ℕ → RubiksCube.ShuffleChoice)
    (framesOf : ℕ → List R) :
    ∀ (remaining idx : ℕ) (s : CubeState R) (tr : List RubiksCube.ShuffleEvent),
      s.isTranforming = false →
      ∃ s' : CubeState R,
        RubiksCube.shuffleTurn T pick framesOf remaining idx (s, tr)
          = (s', tr ++ List.replicate remaining RubiksCube.ShuffleEvent.turnCompleted
              ++ [RubiksCube.ShuffleEvent.overallComplete]) := by
  intro remaining
  induction remaining with
  | zero =>
    intro idx s tr _
    exact ⟨s, by simp [RubiksCube.shuffleTurn]⟩
  | succ r ih =>
    intro idx s tr h
    show ∃ s', RubiksCube.rotateWithCallback T _ _ _ _ _ (s, tr) = _
    unfold RubiksCube.rotateWithCallback
    rw [h]
    simp only [Bool.false_eq_true, if_false]
    obtain ⟨s', hs'⟩ := ih (idx + 1)
      (RubiksCube.rotate T (pick idx).axis (pick idx).sec (pick idx).clockwise (framesOf idx) s)
      (tr ++ [RubiksCube.ShuffleEvent.turnCompleted])
      (rotate_isTranforming T _ _ _ _ s h)
    refine ⟨s', ?_⟩
    rw [hs']
    simp [List.replicate_succ]

/-- C8: shuffle serialization.  Called on an idle cube, `shuffle` with
`turns = n` performs its turns strictly one after another — turn `k+1` is
requested only from inside the completion callback of turn `k`, which is what
appends the `k`-th `turnCompleted` event — and the overall completion
callback fires exactly once, after all `n` per-turn completions: the
observed event trace is exactly `n` `turnCompleted` events followed by a
single `overallComplete`. -/
theorem C8_shuffle_serialization (T : TrigOracle R) (pick : ℕ → RubiksCube.ShuffleChoice)
    (framesOf : ℕ → List R) (turns : ℕ) (s : CubeState R)
    (tr : List RubiksCube.ShuffleEvent) (h : s.isTranforming = false) :
    ∃ s' : CubeState R,
      RubiksCube.shuffle T pick framesOf turns (s, tr)
        = (s', tr ++ List.replicate turns RubiksCube.ShuffleEvent.turnCompleted
            ++ [RubiksCube.ShuffleEvent.overallComplete]) :=
  shuffleTurn_trace T pick framesOf turns 0 s tr h

/-- Witness for `C8_shuffle_serialization`: a 3-turn shuffle on the
freshly constructed cube produces exactly three per-turn completions and
then the single overall completion. -/
theorem C8_witness :
    (initState ℚ).isTranforming = false
    ∧ ∃ s' : CubeState ℚ,
      RubiksCube.shuffle ⟨id, id, 0⟩ (fun _ => ⟨Axis.x, 0, true⟩) (fun _ => []) 3
          (initState ℚ, [])
        = (s', List.replicate 3 RubiksCube.ShuffleEvent.turnCompleted
            ++ [RubiksCube.ShuffleEvent.overallComplete]) := by
  refine ⟨rfl, ?_⟩
  obtain ⟨s', hs'⟩ := C8_shuffle_serialization (R := ℚ) ⟨id, id, 0⟩
    (fun _ => ⟨Axis.x, 0, true⟩) (fun _ => []) 3 (initState ℚ) [] rfl
  exact ⟨s', by simpa using hs'⟩

end ClaimC8

section ClaimC9

variable {R : Type} [LinearOrderedField R]

/-- `nearestClampDistance` with the default clamps returns `c - angle`
for a clamp `c` among `{-q, 0, q}` whose distance to the angle is
minimal (ties resolved toward the earlier clamp by the strict
comparison). -/
theorem nearestClampDistance_spec (θ q : R) :
    ∃ c, c ∈ ([-q, 0, q] : List R) ∧ (∀ c' ∈ ([-q, 0, q] : List R), |θ - c| ≤ |θ - c'|)
      ∧ nearestClampDistance θ [-q, 0, q] = c - θ := by
  unfold nearestClampDistance
  simp only [List.foldl_cons, List.foldl_nil]
  by_cases d1 : |θ - 0| < |θ - -q|
  · rw [if_pos d1]
    by_cases d2 : |θ - q| < |θ - 0|
    · rw [if_pos d2]
      refine ⟨q, by simp, ?_, rfl⟩
      intro c' hc'
      simp only [List.mem_cons, List.not_mem_nil, or_false] at hc'
      rcases hc' with rfl | rfl | rfl
      · exact le_of_lt (d2.trans d1)
      · exact d2.le
      · exact le_refl _
    · rw [if_neg d2]
      refine ⟨0, by simp, ?_, rfl⟩
      intro c' hc'
      simp only [List.mem_cons, List.not_mem_nil, or_false] at hc'
      rcases hc' with rfl | rfl | rfl
      · exact d1.le
      · exact le_refl _
      · exact not_lt.1 d2
  · rw [if_neg d1]
    by_cases d2 : |θ - q| < |θ - -q|
    · rw [if_pos d2]
      refine ⟨q, by simp, ?_, rfl⟩
      intro c' hc'
      simp only [List.mem_cons, List.not_mem_nil, or_false] at hc'
      rcases hc' with rfl | rfl | rfl
      · exact d2.le
      · exact le_of_lt (lt_of_lt_of_le d2 (not_lt.1 d1))
      · exact le_refl _
    · rw [if_neg d2]
      refine ⟨-q, by simp, ?_, rfl⟩
      intro c' hc'
      simp only [List.mem_cons, List.not_mem_nil, or_false] at hc'
      rcases hc' with rfl | rfl | rfl
      · exact le_refl _
      · exact not_lt.1 d1
      · exact not_lt.1 d2

/-- Below the half-way point the snap target is `0`. -/
theorem nearestClampDistance_low {θ q : R} (h0 : 0 ≤ θ) (hlt : θ < q / 2) :
    nearestClampDistance θ [-q, 0, q] = 0 - θ := by
  have hqpos : 0 < q := by linarith
  have c1 : |θ - (0 : R)| = θ := by rw [sub_zero, abs_of_nonneg h0]
  have c2 : |θ - -q| = θ + q := by
    rw [sub_neg_eq_add, abs_of_nonneg (by linarith)]
  have c3 : |θ - q| = q - θ := by
    rw [abs_sub_comm, abs_of_nonneg (by linarith)]
  unfold nearestClampDistance
  simp only [List.foldl_cons, List.foldl_nil, c1, c2, c3]
  rw [if_pos (show θ < θ + q by linarith), if_neg (show ¬(q - θ < θ) by linarith)]

/-- Past the half-way point the snap target is `q`. -/
theorem nearestClampDistance_high {θ q : R} (hhalf : q / 2 < θ) (hle : θ ≤ q) :
    nearestClampDistance θ [-q, 0, q] = q - θ := by
  have hqpos : 0 < q := by linarith
  have h0 : 0 ≤ θ := by linarith
  have c1 : |θ - (0 : R)| = θ := by rw [sub_zero, abs_of_nonneg h0]
  have c2 : |θ - -q| = θ + q := by
    rw [sub_neg_eq_add, abs_of_nonneg (by linarith)]
  have c3 : |θ - q| = q - θ := by
    rw [abs_sub_comm, abs_of_nonneg (by linarith)]
  unfold nearestClampDistance
  simp only [List.foldl_cons, List.foldl_nil, c1, c2, c3]
  rw [if_pos (show θ < θ + q by linarith), if_pos (show q - θ < θ by linarith)]

/-- C9: pointer-up snap.  With a locked axis/slice and accumulated
gesture angle `θ`, `onMouseUp` applies exactly the remaining delta
`c - θ` to the locked slice, where `c` is whichever of
`{-π/2, 0, π/2}` is nearest to `θ`, then resets the gesture state (axis,
section, angle, intersection) to `none` and stops dragging.  In
particular `θ = 0.3·(π/2)` snaps to `0` and `θ = 0.8·(π/2)` snaps to
`π/2`. -/
theorem C9_pointer_up_snap :
    (∀ (s : CubeState ℝ) (a : Axis) (sec : Fin 3) (θ : ℝ),
      s.rotationAxis = some a → s.rotationSection = some sec → s.rotationAngle = some θ →
      ∃ c : ℝ, c ∈ ([-(Real.pi / 2), 0, Real.pi / 2] : List ℝ)
        ∧ (∀ c' ∈ ([-(Real.pi / 2), 0, Real.pi / 2] : List ℝ), |θ - c| ≤ |θ - c'|)
        ∧ RubiksCube.onMouseUp (⟨Real.cos, Real.sin, Real.pi⟩ : TrigOracle ℝ) s
          = { s with
              isDragging := false
              positions := RubiksCube.applyRotationAngle
                (⟨Real.cos, Real.sin, Real.pi⟩ : TrigOracle ℝ) s.positions a sec (c - θ)
              rotationAxis := none
              rotationSection := none
              rotationAngle := none
              initialIntersect := none })
    ∧ (0.3 : ℝ) * (Real.pi / 2)
        + nearestClampDistance ((0.3 : ℝ) * (Real.pi / 2)) [-(Real.pi / 2), 0, Real.pi / 2]
      = 0
    ∧ (0.8 : ℝ) * (Real.pi / 2)
        + nearestClampDistance ((0.8 : ℝ) * (Real.pi / 2)) [-(Real.pi / 2), 0, Real.pi / 2]
      = Real.pi / 2 := by
  have hpi : (0 : ℝ) < Real.pi / 2 := by positivity
  refine ⟨?_, ?_, ?_⟩
  · intro s a sec θ ha hsec hθ
    obtain ⟨c, hmem, hmin, heq⟩ := nearestClampDistance_spec θ (Real.pi / 2)
    refine ⟨c, hmem, hmin, ?_⟩
    unfold RubiksCube.onMouseUp
    rw [ha, hsec, hθ]
    simp only [heq]
  · have := nearestClampDistance_low (θ := (0.3 : ℝ) * (Real.pi / 2)) (q := Real.pi / 2)
      (by positivity) (by nlinarith)
    rw [this]
    ring
  · have := nearestClampDistance_high (θ := (0.8 : ℝ) * (Real.pi / 2)) (q := Real.pi / 2)
      (by nlinarith) (by nlinarith)
    rw [this]
    ring

end ClaimC9

/-- Witness for `C9_pointer_up_snap` at a concrete locked gesture
state. -/
theorem C9_witness :
    ({ initState ℝ with
        rotationAxis := some Axis.x
        rotationSection := some 0
        rotationAngle := some 0 } : CubeState ℝ).rotationAxis = some Axis.x
    ∧ ∃ c : ℝ, c ∈ ([-(Real.pi / 2), 0, Real.pi / 2] : List ℝ)
      ∧ (∀ c' ∈ ([-(Real.pi / 2), 0, Real.pi / 2] : List ℝ), |(0 : ℝ) - c| ≤ |(0 : ℝ) - c'|)
      ∧ RubiksCube.onMouseUp (⟨Real.cos, Real.sin, Real.pi⟩ : TrigOracle ℝ)
          { initState ℝ with
            rotationAxis := some Axis.x
            rotationSection := some 0
            rotationAngle := some 0 }
        = { ({ initState ℝ with
              rotationAxis := some Axis.x
              rotationSection := some 0
              rotationAngle := some 0 } : CubeState ℝ) with
            isDragging := false
            positions := RubiksCube.applyRotationAngle
              (⟨Real.cos, Real.sin, Real.pi⟩ : TrigOracle ℝ)
              ({ initState ℝ with
                rotationAxis := some Axis.x
                rotationSection := some 0
                rotationAngle := some 0 } : CubeState ℝ).positions Axis.x 0 (c - 0)
            rotationAxis := none
            rotationSection := none
            rotationAngle := none
            initialIntersect := none } :=
  ⟨rfl, C9_pointer_up_snap.1
    { initState ℝ with
      rotationAxis := some Axis.x
      rotationSection := some 0
      rotationAngle := some 0 } Axis.x 0 0 rfl rfl rfl⟩

section ClaimC10

set_option maxRecDepth 4000 in
unseal Rat.add Rat.mul Rat.inv Rat.sub Rat.ofScientific in
/-- C10 counterexample: the claim predicts that, for a gesture whose drag
started at screen coordinate 0 on the relevant axis, already the *first*
processed move throws.  In fact the first processed move takes the
classification branch — which never calls `getRotationAngle` — and
succeeds; only the next processed move (routed through `setRotation`)
throws. -/
theorem C10_counterexample :
    ¬ ((RubiksCube.onMouseMove (R := ℚ) ⟨id, id, 0⟩ 1000 1000 50 140
        { initState ℚ with
          isDragging := true
          dragStartX := some 0
          dragStartY := some 100
          initialIntersect := some (⟨2, 0, 0⟩, ⟨1, 0, 0⟩) }).isOk = false) := by
  decide

/-- C10 amended: `getRotationAngle` throws the "Unable to determine
angle" error whenever the computed delta, the relevant screen dimension,
or the relevant drag-start coordinate is zero (or unset), because the
guard tests JavaScript falsiness rather than `null`.  For every gesture
whose drag started at screen coordinate 0 along the relevant axis, the
first processed move still classifies without error (see
`C10_counterexample`), and every *subsequent* processed move — which goes
through `setRotation` — throws even though the selected face and rotation
axis form a valid combination. -/
theorem C10_amended {R : Type} [LinearOrderedField R] :
    (∀ (T : TrigOracle R) (wW wH dX dY : R) (s : CubeState R),
      ((s.selectedFace = some Axis.x ∧ s.rotationAxis = some Axis.y)
        ∨ (s.selectedFace = some Axis.y ∧ s.rotationAxis = some Axis.z)
        ∨ (s.selectedFace = some Axis.z ∧ s.rotationAxis = some Axis.y)) →
      ((if s.selectedFace = some Axis.y then -dX else dX) = 0 ∨ wW = 0
        ∨ s.dragStartX.getD 0 = 0) →
      RubiksCube.getRotationAngle T wW wH s dX dY
        = Except.error "Unable to determine angle.")
    ∧ (∀ (T : TrigOracle R) (wW wH dX dY : R) (s : CubeState R),
      ((s.selectedFace = some Axis.x ∧ s.rotationAxis = some Axis.z)
        ∨ (s.selectedFace = some Axis.y ∧ s.rotationAxis = some Axis.x)
        ∨ (s.selectedFace = some Axis.z ∧ s.rotationAxis = some Axis.x)) →
      (dY = 0 ∨ wH = 0 ∨ s.dragStartY.getD 0 = 0) →
      RubiksCube.getRotationAngle T wW wH s dX dY
        = Except.error "Unable to determine angle.")
    ∧ (∀ (T : TrigOracle R) (wW wH cX cY : R) (s : CubeState R) (pt nrm : Vec3 R)
        (sy θ : R) (sec : Fin 3),
      s.isDragging = true → s.initialIntersect = some (pt, nrm) →
      s.dragStartX = some 0 → s.dragStartY = some sy →
      s.selectedFace = some Axis.x → s.rotationAxis = some Axis.y →
      s.rotationSection = some sec → s.rotationAngle = some θ →
      ¬(|cX - 0| < 10 ∨ |cY - sy| < 10) →
      RubiksCube.onMouseMove T wW wH cX cY s
        = Except.error "Unable to determine angle.") := by
  have part1 : ∀ (T : TrigOracle R) (wW wH dX dY : R) (s : CubeState R),
      ((s.selectedFace = some Axis.x ∧ s.rotationAxis = some Axis.y)
        ∨ (s.selectedFace = some Axis.y ∧ s.rotationAxis = some Axis.z)
        ∨ (s.selectedFace = some Axis.z ∧ s.rotationAxis = some Axis.y)) →
      ((if s.selectedFace = some Axis.y then -dX else dX) = 0 ∨ wW = 0
        ∨ s.dragStartX.getD 0 = 0) →
      RubiksCube.getRotationAngle T wW wH s dX dY
        = Except.error "Unable to determine angle." := by
    intro T wW wH dX dY s hcombo hzero
    rcases hcombo with ⟨hf, ha⟩ | ⟨hf, ha⟩ | ⟨hf, ha⟩
    · rw [hf] at hzero
      rcases hzero with h | h | h
      · have h' : dX = 0 := by simpa using h
        simp [RubiksCube.getRotationAngle, hf, ha, h']
      · simp [RubiksCube.getRotationAngle, hf, ha, h]
      · simp [RubiksCube.getRotationAngle, hf, ha, h]
    · rw [hf] at hzero
      rcases hzero with h | h | h
      · have h' : dX = 0 := by simpa using h
        simp [RubiksCube.getRotationAngle, hf, ha, h']
      · simp [RubiksCube.getRotationAngle, hf, ha, h]
      · simp [RubiksCube.getRotationAngle, hf, ha, h]
    · rw [hf] at hzero
      rcases hzero with h | h | h
      · have h' : dX = 0 := by simpa using h
        simp [RubiksCube.getRotationAngle, hf, ha, h']
      · simp [RubiksCube.getRotationAngle, hf, ha, h]
      · simp [RubiksCube.getRotationAngle, hf, ha, h]
  refine ⟨part1, ?_, ?_⟩
  · intro T wW wH dX dY s hcombo hzero
    rcases hcombo with ⟨hf, ha⟩ | ⟨hf, ha⟩ | ⟨hf, ha⟩ <;>
      rcases hzero with h | h | h <;>
        simp [RubiksCube.getRotationAngle, hf, ha, h]
  · intro T wW wH cX cY s pt nrm sy θ sec hd hi hx hy hf ha hsec hang hbig
    rw [onMouseMove_armed T wW wH cX cY s pt nrm 0 sy hd hi hx hy]
    rw [if_neg hbig]
    have hmatch : (match s.rotationAxis, s.rotationSection, s.rotationAngle with
        | some a, some sc, some _ =>
          RubiksCube.setRotation T wW wH s a sc (cX - 0) (cY - sy)
        | _, _, _ => Except.ok (RubiksCube.classifyMove pt nrm (cX - 0) (cY - sy) s))
        = RubiksCube.setRotation T wW wH s Axis.y sec (cX - 0) (cY - sy) := by
      rw [ha, hsec, hang]
    rw [hmatch]
    unfold RubiksCube.setRotation
    rw [hang]
    have hga : RubiksCube.getRotationAngle T wW wH s (cX - 0) (cY - sy)
        = Except.error "Unable to determine angle." := by
      apply part1 T wW wH (cX - 0) (cY - sy) s (Or.inl ⟨hf, ha⟩)
      right
      right
      rw [hx]
      rfl
    rw [hga]
    rfl

/-- Witness for `C10_amended`: the second processed move of a gesture
that started at the left window edge (`dragStart.x = 0`) errors out. -/
theorem C10_witness :
    RubiksCube.onMouseMove (R := ℚ) ⟨id, id, 0⟩ 1000 1000 50 140
        { initState ℚ with
          isDragging := true
          dragStartX := some 0
          dragStartY := some 100
          initialIntersect := some (⟨2, 0, 0⟩, ⟨1, 0, 0⟩)
          selectedFace := some Axis.x
          rotationAxis := some Axis.y
          rotationSection := some 0
          rotationAngle := some 0 }
      = Except.error "Unable to determine angle." :=
  C10_amended.2.2 ⟨id, id, 0⟩ 1000 1000 50 140 _ ⟨2, 0, 0⟩ ⟨1, 0, 0⟩ 100 0 0
    rfl rfl rfl rfl rfl rfl rfl rfl (by norm_num)

end ClaimC10
